import Mathlib

/-!
Verification development for the needs-list document-request service.

The persistent data model (`documents/models.py`) and the HTTP operations
(`documents/views.py`) are embedded as pure Lean functions over an explicit
database state `DB`.  Each mutating view returns, besides the final state and
the JSON response, the list of intermediate *committed* states: Django runs in
autocommit mode, so every ORM write outside a `transaction.atomic()` block is
a separately observable commit, while the writes inside an atomic block appear
only in the single state committed at the end of the block.
-/

namespace NeedsList

/-- Modelled from the spec: the deployed `models.py` carrying the
request-scoping fields (`Category.request`, `PrintGroup.request`,
`Document.request`) and the upload review fields (`accepted`, `accepted_at`,
`file_name`) is missing from the source snapshot (the snapshot ships an
earlier revision of `models.py`, while `views.py` reads and writes these
fields).  The shapes below follow spec section 3: each entity is global when
its `request` reference is absent and scoped to one `DocumentRequest`
otherwise. -/
structure Category where
  id : Nat
  name : String
  description : String
  request : Option Nat
deriving DecidableEq, Repr

structure PrintGroup where
  id : Nat
  name : String
  description : String
  request : Option Nat
deriving DecidableEq, Repr

structure Document where
  id : Nat
  name : String
  description : String
  category : Nat
  print_groups : List Nat
  request : Option Nat
deriving DecidableEq, Repr

structure DocumentRequest where
  id : Nat
  request_id : String
deriving DecidableEq, Repr

/-- Model of `AdminDocumentSelection` from `models.py`: binds a request, a section type
(`"adhoc"`, `"individual"` or `"needs_list"`), a document and an optional
print group.  `created_at` is a logical timestamp (the creation counter). -/
structure AdminDocumentSelection where
  id : Nat
  request : Nat
  section_type : String
  document : Nat
  print_group : Option Nat
  created_at : Nat
deriving DecidableEq, Repr

/-- Modelled from the spec (review fields): `UserDocumentUpload` with the
`accepted` flag and `accepted_at` timestamp used by `views.py`
(`delete_user_upload`, `accept_user_upload`); an upload starts Pending
(`accepted = false`). -/
structure UserDocumentUpload where
  id : Nat
  admin_selection : Nat
  file_name : String
  uploaded_at : Nat
  accepted : Bool
  accepted_at : Option Nat
deriving DecidableEq, Repr

/-- The whole persistent store.  `nextId` is the fresh primary-key counter,
also used as the logical clock for `created_at` / `uploaded_at` stamps. -/
structure DB where
  requests : List DocumentRequest
  categories : List Category
  print_groups : List PrintGroup
  documents : List Document
  selections : List AdminDocumentSelection
  uploads : List UserDocumentUpload
  nextId : Nat
deriving DecidableEq, Repr

def initDB : DB := ⟨[], [], [], [], [], [], 0⟩

/-- A JSON response: success with an HTTP status, or an error message with an
HTTP status, mirroring `JsonResponse({'success': True, ...}, status=s)` and
`JsonResponse({'error': msg}, status=s)`. -/
inductive Resp where
  | ok (status : Nat)
  | err (status : Nat) (msg : String)
deriving DecidableEq, Repr

/-- Outcome of a mutating view: final state, response, and the intermediate
committed states (each autocommitted ORM write, and each `transaction.atomic`
block, contributes one entry; the last entry is the final state whenever the
operation wrote anything). -/
structure Out where
  db : DB
  resp : Resp
  commits : List DB
deriving DecidableEq, Repr

/-- Embeds `DocumentRequest.objects.get_or_create(request_id=rid)`: returns the state
after the call, the resolved row, and whether a row was created. -/
def getOrCreate (db : DB) (rid : String) : DB × DocumentRequest × Bool :=
  match db.requests.find? (fun r => r.request_id == rid) with
  | some r => (db, r, false)
  | none =>
    let r : DocumentRequest := ⟨db.nextId, rid⟩
    ({ db with requests := r :: db.requests, nextId := db.nextId + 1 }, r, true)

/-- Embeds `DocumentRequest.objects.get(request_id=rid)` (no creation). -/
def findRequest (db : DB) (rid : String) : Option DocumentRequest :=
  db.requests.find? (fun r => r.request_id == rid)

/-- Deleting one `AdminDocumentSelection` row cascades to its user uploads
(`UserDocumentUpload.admin_selection` has `on_delete=CASCADE`). -/
def deleteSelectionRow (db : DB) (selId : Nat) : DB :=
  { db with
    selections := db.selections.filter (fun s => !(s.id == selId)),
    uploads := db.uploads.filter (fun u => !(u.admin_selection == selId)) }

/-- Embeds `AdminDocumentSelection.objects.filter(request=req, section_type=st).delete()`
with the upload cascade. -/
def deleteSectionSelections (db : DB) (reqId : Nat) (st : String) : DB :=
  let dead := (db.selections.filter
    (fun s => s.request == reqId && s.section_type == st)).map (·.id)
  { db with
    selections := db.selections.filter
      (fun s => !(s.request == reqId && s.section_type == st)),
    uploads := db.uploads.filter (fun u => !(dead.contains u.admin_selection)) }

/-- Embeds `document.delete()`: cascades to every selection of the document
(`AdminDocumentSelection.document` has `on_delete=CASCADE`) and, through those
selections, to their uploads. -/
def deleteDocumentCascade (db : DB) (docId : Nat) : DB :=
  let deadSels := (db.selections.filter (fun s => s.document == docId)).map (·.id)
  { db with
    documents := db.documents.filter (fun d => !(d.id == docId)),
    selections := db.selections.filter (fun s => !(s.document == docId)),
    uploads := db.uploads.filter (fun u => !(deadSels.contains u.admin_selection)) }

/-- The selection rows produced by the creation loop of
`save_admin_selections`, one per document, with consecutive fresh ids used
also as `created_at` stamps. -/
def newBlock (reqId : Nat) (st : String) (pg : Option Nat) :
    Nat → List Document → List AdminDocumentSelection
  | _, [] => []
  | n, d :: ds => ⟨n, reqId, st, d.id, pg, n⟩ :: newBlock reqId st pg (n + 1) ds

/-- The creation loop of `save_admin_selections`
(`AdminDocumentSelection.objects.create(...)` per document). -/
def createSelections (reqId : Nat) (st : String) (pg : Option Nat) :
    DB → List Document → DB
  | db, [] => db
  | db, d :: ds =>
    createSelections reqId st pg
      { db with
        selections :=
          ⟨db.nextId, reqId, st, d.id, pg, db.nextId⟩ :: db.selections,
        nextId := db.nextId + 1 } ds

/-- Lexicographic comparison of char lists (executable form of the string
order used by the database when sorting by a text column). -/
def charListLE : List Char → List Char → Bool
  | [], _ => true
  | _ :: _, [] => false
  | a :: as, b :: bs => if a < b then true else if b < a then false else charListLE as bs

/-- Lexicographic string comparison, kernel-executable. -/
def strLE (a b : String) : Bool := charListLE a.data b.data

/-- Queryset order for `Document.objects.filter(...)`: the model Meta declares
`ordering = [name]`. -/
def docNameLE (a b : Document) : Prop := strLE a.name b.name = true

instance : DecidableRel docNameLE := fun a b => instDecidableEqBool (strLE a.name b.name) true

/-- Embeds `create_category` (`views.py`): request-scoped categories check name
uniqueness only within the request, global ones only among global rows. -/
def create_category (db : DB) (name description : String)
    (request_id : Option String) : Out :=
  if name = "" then ⟨db, .err 400 "Missing required field: name", []⟩
  else
    let stored := if description = "" then "Category: " ++ name else description
    match request_id with
    | some rid =>
      let g := getOrCreate db rid
      let db1 := g.1
      let commits0 := if g.2.2 then [db1] else []
      if db1.categories.any
          (fun c => c.name == name && c.request == some g.2.1.id) then
        ⟨db1, .err 400 "A category with this name already exists for this request",
          commits0⟩
      else
        let db2 := { db1 with
          categories := ⟨db1.nextId, name, stored, some g.2.1.id⟩ :: db1.categories,
          nextId := db1.nextId + 1 }
        ⟨db2, .ok 201, commits0 ++ [db2]⟩
    | none =>
      if db.categories.any (fun c => c.name == name && c.request == none) then
        ⟨db, .err 400 "Category with this name already exists", []⟩
      else
        let db2 := { db with
          categories := ⟨db.nextId, name, stored, none⟩ :: db.categories,
          nextId := db.nextId + 1 }
        ⟨db2, .ok 201, [db2]⟩

/-- Embeds `create_document` (`views.py`): a global document. -/
def create_document (db : DB) (name description : String)
    (category_id : Option Nat) (print_group_ids : List Nat) : Out :=
  if name = "" ∨ description = "" ∨ category_id = none then
    ⟨db, .err 400 "Missing required fields: name, description, category_id", []⟩
  else
    match category_id with
    | none => ⟨db, .err 400 "Missing required fields: name, description, category_id", []⟩
    | some cid =>
      match db.categories.find? (fun c => c.id == cid) with
      | none => ⟨db, .err 404 "Category not found", []⟩
      | some _ =>
        let pgs := (db.print_groups.filter
          (fun g => print_group_ids.contains g.id)).map (·.id)
        let db1 := { db with
          documents := ⟨db.nextId, name, description, cid, pgs, none⟩ :: db.documents,
          nextId := db.nextId + 1 }
        ⟨db1, .ok 201, [db1]⟩

/-- Embeds `create_adhoc_document` (`views.py`): creates a request-scoped document and
an `adhoc` selection for it.  The two `objects.create` calls are separate
autocommits (there is no `transaction.atomic` block in this view), hence two
commit entries. -/
def create_adhoc_document (db : DB) (rid : String) (name description : String)
    (category_id : Option Nat) : Out :=
  let g := getOrCreate db rid
  let db1 := g.1
  let req := g.2.1
  let commits0 := if g.2.2 then [db1] else []
  if name = "" ∨ description = "" ∨ category_id = none then
    ⟨db1, .err 400 "Missing required fields: name, description, category_id", commits0⟩
  else
    match category_id with
    | none => ⟨db1, .err 400 "Missing required fields: name, description, category_id", commits0⟩
    | some cid =>
      match db1.categories.find? (fun c => c.id == cid) with
      | none => ⟨db1, .err 404 "Category not found", commits0⟩
      | some _ =>
        let docId := db1.nextId
        let db2 := { db1 with
          documents := ⟨docId, name, description, cid, [], some req.id⟩ :: db1.documents,
          nextId := db1.nextId + 1 }
        let db3 := { db2 with
          selections :=
            ⟨db2.nextId, req.id, "adhoc", docId, none, db2.nextId⟩ :: db2.selections,
          nextId := db2.nextId + 1 }
        ⟨db3, .ok 201, commits0 ++ [db2, db3]⟩

/-- Embeds `create_individual_document` (`views.py`): same as the adhoc creation but
with `section_type = individual`. -/
def create_individual_document (db : DB) (rid : String) (name description : String)
    (category_id : Option Nat) : Out :=
  let g := getOrCreate db rid
  let db1 := g.1
  let req := g.2.1
  let commits0 := if g.2.2 then [db1] else []
  if name = "" ∨ description = "" ∨ category_id = none then
    ⟨db1, .err 400 "Missing required fields: name, description, category_id", commits0⟩
  else
    match category_id with
    | none => ⟨db1, .err 400 "Missing required fields: name, description, category_id", commits0⟩
    | some cid =>
      match db1.categories.find? (fun c => c.id == cid) with
      | none => ⟨db1, .err 404 "Category not found", commits0⟩
      | some _ =>
        let docId := db1.nextId
        let db2 := { db1 with
          documents := ⟨docId, name, description, cid, [], some req.id⟩ :: db1.documents,
          nextId := db1.nextId + 1 }
        let db3 := { db2 with
          selections :=
            ⟨db2.nextId, req.id, "individual", docId, none, db2.nextId⟩ :: db2.selections,
          nextId := db2.nextId + 1 }
        ⟨db3, .ok 201, commits0 ++ [db2, db3]⟩

/-- Embeds `create_needs_list_print_group` (`views.py`): a request-scoped print group;
no duplicate-name check is performed by this view. -/
def create_needs_list_print_group (db : DB) (rid : String)
    (name description : String) : Out :=
  let g := getOrCreate db rid
  let db1 := g.1
  let req := g.2.1
  let commits0 := if g.2.2 then [db1] else []
  if name = "" then ⟨db1, .err 400 "Missing required field: name", commits0⟩
  else
    let stored := if description = "" then "Print group: " ++ name else description
    let db2 := { db1 with
      print_groups := ⟨db1.nextId, name, stored, some req.id⟩ :: db1.print_groups,
      nextId := db1.nextId + 1 }
    ⟨db2, .ok 201, commits0 ++ [db2]⟩

/-- Embeds `create_needs_list_document` (`views.py`): request-scoped document,
attached to the print group, plus a `needs_list` selection carrying that
print group; three separate autocommitted writes. -/
def create_needs_list_document (db : DB) (rid : String) (name description : String)
    (category_id : Option Nat) (print_group_id : Option Nat) : Out :=
  let g := getOrCreate db rid
  let db1 := g.1
  let req := g.2.1
  let commits0 := if g.2.2 then [db1] else []
  if name = "" ∨ description = "" ∨ category_id = none ∨ print_group_id = none then
    ⟨db1, .err 400 "Missing required fields: name, description, category_id, print_group_id",
      commits0⟩
  else
    match category_id, print_group_id with
    | some cid, some pgid =>
      match db1.categories.find? (fun c => c.id == cid) with
      | none => ⟨db1, .err 404 "Category not found", commits0⟩
      | some _ =>
        match db1.print_groups.find? (fun p => p.id == pgid) with
        | none => ⟨db1, .err 404 "Print group not found", commits0⟩
        | some pg =>
          let docId := db1.nextId
          let db2 := { db1 with
            documents := ⟨docId, name, description, cid, [], some req.id⟩ :: db1.documents,
            nextId := db1.nextId + 1 }
          let db3 := { db2 with
            documents := db2.documents.map (fun d =>
              if d.id == docId then { d with print_groups := d.print_groups ++ [pg.id] } else d) }
          let db4 := { db3 with
            selections :=
              ⟨db3.nextId, req.id, "needs_list", docId, some pg.id, db3.nextId⟩ :: db3.selections,
            nextId := db3.nextId + 1 }
          ⟨db4, .ok 201, commits0 ++ [db2, db3, db4]⟩
    | _, _ =>
      ⟨db1, .err 400 "Missing required fields: name, description, category_id, print_group_id",
        commits0⟩

/-- Embeds `delete_adhoc_document` (`views.py`): deletes the selection; if the
underlying document is request-scoped, deletes the document too (cascading). -/
def delete_adhoc_document (db : DB) (rid : String) (selection_id : Nat) : Out :=
  match findRequest db rid with
  | none => ⟨db, .err 404 "Request not found", []⟩
  | some req =>
    match db.selections.find? (fun s =>
        s.id == selection_id && s.request == req.id && s.section_type == "adhoc") with
    | none => ⟨db, .err 500 "No AdminDocumentSelection matches the given query.", []⟩
    | some sel =>
      let db1 := deleteSelectionRow db sel.id
      match db1.documents.find? (fun d => d.id == sel.document) with
      | some doc =>
        if doc.request.isSome then
          let db2 := deleteDocumentCascade db1 doc.id
          ⟨db2, .ok 200, [db1, db2]⟩
        else ⟨db1, .ok 200, [db1]⟩
      | none => ⟨db1, .ok 200, [db1]⟩

/-- Core of `save_admin_selections` after validation: the
section-wide delete runs as its own autocommit (it sits *outside* the
`with transaction.atomic()` block in `views.py`), then the creation loop runs
inside one atomic block, giving one further commit. -/
def saveCore (db1 : DB) (reqId : Nat) (st : String) (docs : List Document)
    (pg : Option Nat) (commits0 : List DB) : Out :=
  let db2 := deleteSectionSelections db1 reqId st
  let db3 := createSelections reqId st pg db2 (docs.insertionSort docNameLE)
  ⟨db3, .ok 201, commits0 ++ [db2, db3]⟩

/-- Embeds `save_admin_selections` (`views.py`): validates the payload, then replaces
the whole `(request, section_type)` section with one selection per document. -/
def save_admin_selections (db : DB) (request_id : String) (section_type : String)
    (document_ids : List Nat) (print_group_id : Option Nat) : Out :=
  let g := getOrCreate db request_id
  let db1 := g.1
  let req := g.2.1
  let commits0 := if g.2.2 then [db1] else []
  if ¬ (section_type = "adhoc" ∨ section_type = "individual" ∨
        section_type = "needs_list") then
    ⟨db1, .err 400 "Invalid section_type. Must be: adhoc, individual, or needs_list",
      commits0⟩
  else if document_ids = [] then
    ⟨db1, .err 400 "document_ids is required", commits0⟩
  else if section_type = "needs_list" ∧ print_group_id = none then
    ⟨db1, .err 400 "print_group_id is required for needs_list section", commits0⟩
  else
    let docs := db1.documents.filter (fun d => document_ids.contains d.id)
    if docs.length ≠ document_ids.length then
      ⟨db1, .err 404 "One or more documents not found", commits0⟩
    else
      match print_group_id with
      | some pgid =>
        match db1.print_groups.find? (fun p => p.id == pgid) with
        | none => ⟨db1, .err 404 "Print group not found", commits0⟩
        | some pg => saveCore db1 req.id section_type docs (some pg.id) commits0
      | none => saveCore db1 req.id section_type docs none commits0

/-- Embeds `upload_user_file` (`views.py`): appends an upload row for the selection;
never deduplicated; the new upload starts Pending. -/
def upload_user_file (db : DB) (rid : String) (selection_id : Nat)
    (file_name : String) : Out :=
  match findRequest db rid with
  | none => ⟨db, .err 404 "Request not found", []⟩
  | some req =>
    match db.selections.find? (fun s => s.id == selection_id && s.request == req.id) with
    | none => ⟨db, .err 500 "No AdminDocumentSelection matches the given query.", []⟩
    | some sel =>
      let db1 := { db with
        uploads := ⟨db.nextId, sel.id, file_name, db.nextId, false, none⟩ :: db.uploads,
        nextId := db.nextId + 1 }
      ⟨db1, .ok 201, [db1]⟩

/-- Embeds `delete_user_upload` (`views.py`): refuses (HTTP 403, row untouched) when
the upload is accepted; otherwise removes the row. -/
def delete_user_upload (db : DB) (rid : String) (upload_id : Nat) : Out :=
  match findRequest db rid with
  | none => ⟨db, .err 404 "Request not found", []⟩
  | some req =>
    match db.uploads.find? (fun u => u.id == upload_id &&
        db.selections.any (fun s => s.id == u.admin_selection && s.request == req.id)) with
    | none => ⟨db, .err 500 "No UserDocumentUpload matches the given query.", []⟩
    | some u =>
      if u.accepted then
        ⟨db, .err 403 "Cannot delete an accepted document", []⟩
      else
        let db1 := { db with uploads := db.uploads.filter (fun v => !(v.id == u.id)) }
        ⟨db1, .ok 200, [db1]⟩

/-- Embeds `accept_user_upload` (`views.py`): sets the `accepted` flag, stamping
`accepted_at` on acceptance and clearing it on rejection. -/
def accept_user_upload (db : DB) (rid : String) (upload_id : Nat)
    (accepted : Bool) : Out :=
  match findRequest db rid with
  | none => ⟨db, .err 404 "Request not found", []⟩
  | some req =>
    match db.uploads.find? (fun u => u.id == upload_id &&
        db.selections.any (fun s => s.id == u.admin_selection && s.request == req.id)) with
    | none => ⟨db, .err 500 "No UserDocumentUpload matches the given query.", []⟩
    | some u =>
      let u2 : UserDocumentUpload :=
        { u with accepted := accepted,
                 accepted_at := if accepted then some db.nextId else none }
      let db1 := { db with
        uploads := db.uploads.map (fun v => if v.id == u.id then u2 else v),
        nextId := db.nextId + 1 }
      ⟨db1, .ok 200, [db1]⟩

/-- One rendered upload inside the read-side view. -/
structure UploadEntry where
  id : Nat
  file_name : String
  uploaded_at : Nat
  accepted : Bool
  accepted_at : Option Nat
deriving DecidableEq, Repr

/-- One rendered document entry inside the read-side view. -/
structure DocEntry where
  selection_id : Nat
  document_id : Nat
  document_name : String
  document_description : String
  uploads : List UploadEntry
deriving DecidableEq, Repr

/-- The view assembled by `_build_request_document_data`: the `needs_list`
component is a Python dict keyed by print-group name, i.e. an association
list in key-insertion order. -/
structure RequestView where
  adhoc : List DocEntry
  individual : List DocEntry
  needs_list : List (String × List DocEntry)
deriving DecidableEq, Repr

/-- Queryset order for the selections of a request: the model Meta declares
`ordering = [section_type, created_at]`. -/
def selLE (a b : AdminDocumentSelection) : Prop :=
  (strLE a.section_type b.section_type &&
    (!(strLE b.section_type a.section_type) || Nat.ble a.created_at b.created_at)) = true

instance : DecidableRel selLE := fun a b => by unfold selLE; infer_instance

/-- Queryset order for uploads: the model Meta declares
`ordering = [-uploaded_at]` (newest first). -/
def upLE (a b : UserDocumentUpload) : Prop := b.uploaded_at ≤ a.uploaded_at

instance : DecidableRel upLE := fun a b => Nat.decLe b.uploaded_at a.uploaded_at

/-- The uploads rendered for one selection, newest first. -/
def uploadsFor (db : DB) (selId : Nat) : List UploadEntry :=
  ((db.uploads.filter (fun u => u.admin_selection == selId)).insertionSort upLE).map
    (fun u => ⟨u.id, u.file_name, u.uploaded_at, u.accepted, u.accepted_at⟩)

/-- Group label of a needs-list selection: the print group name, with the
literal fallback used by `_build_request_document_data`. -/
def pgName (db : DB) (sel : AdminDocumentSelection) : String :=
  match sel.print_group with
  | some pgid => ((db.print_groups.find? (fun p => p.id == pgid)).map (·.name)).getD "Unknown"
  | none => "Unknown"

/-- The `doc_data` record built for one selection (the document reference is a
foreign key, so it always resolves on real data; a dangling reference yields
no entry). -/
def selectionEntry (db : DB) (sel : AdminDocumentSelection) : Option DocEntry :=
  (db.documents.find? (fun d => d.id == sel.document)).map (fun doc =>
    ⟨sel.id, doc.id, doc.name, doc.description, uploadsFor db sel.id⟩)

/-- Python dict insertion: append to an existing key's list, else append a new
key at the end. -/
def addNeedsEntry (m : List (String × List DocEntry)) (k : String) (e : DocEntry) :
    List (String × List DocEntry) :=
  match m with
  | [] => [(k, [e])]
  | (k1, es) :: rest =>
    if k1 = k then (k1, es ++ [e]) :: rest else (k1, es) :: addNeedsEntry rest k e

/-- The dispatch loop of `_build_request_document_data` over the ordered
selections of the request. -/
def buildFold (db : DB) : List AdminDocumentSelection → RequestView → RequestView
  | [], v => v
  | sel :: rest, v =>
    match selectionEntry db sel with
    | none => buildFold db rest v
    | some e =>
      if sel.section_type = "adhoc" then
        buildFold db rest { v with adhoc := v.adhoc ++ [e] }
      else if sel.section_type = "individual" then
        buildFold db rest { v with individual := v.individual ++ [e] }
      else if sel.section_type = "needs_list" then
        buildFold db rest { v with needs_list := addNeedsEntry v.needs_list (pgName db sel) e }
      else buildFold db rest v

/-- The document entries contributed to the needs-list component by a run of
selections (those of section type `needs_list` whose document resolves). -/
def needsEntries (db : DB) (L : List AdminDocumentSelection) : List DocEntry :=
  L.filterMap (fun s =>
    if s.section_type = "needs_list" then selectionEntry db s else none)

/-- Embeds `_build_request_document_data` (`views.py`): shared read-side projection
for the admin review page, the borrower pages and the PDF export. -/
def build_request_document_data (db : DB) (req : DocumentRequest) : RequestView :=
  buildFold db
    ((db.selections.filter (fun s => s.request == req.id)).insertionSort selLE)
    ⟨[], [], []⟩

/-- Key order used by `sorted(needs_list_docs.items())` in
`download_request_pdf`: lexicographic on the group name (keys are unique, so
the tuple comparison never reaches the values). -/
def pairKeyLE (a b : String × List DocEntry) : Prop := strLE a.1 b.1 = true

instance : DecidableRel pairKeyLE :=
  fun a b => instDecidableEqBool (strLE a.1 b.1) true

/-- The sequence of needs-list groups as rendered by the PDF export
(`download_request_pdf` iterates `sorted(needs_list_docs.items())`). -/
def download_request_pdf_needs (db : DB) (req : DocumentRequest) :
    List (String × List DocEntry) :=
  (build_request_document_data db req).needs_list.insertionSort pairKeyLE

/-- The storage uniqueness key of a selection row: `unique_together =
[request, section_type, document, print_group]` in the model Meta. -/
def selKey (s : AdminDocumentSelection) : Nat × String × Nat × Option Nat :=
  (s.request, s.section_type, s.document, s.print_group)

/-- Structural well-formedness of the store, maintained by every operation:
request identifiers are unique, document primary keys are unique and below
the fresh counter, selections reference existing documents, and no two
selections share the `(request, section_type, document, print_group)` key. -/
structure Wf (db : DB) : Prop where
  req_rid_nodup : (db.requests.map (·.request_id)).Nodup
  doc_ids_nodup : (db.documents.map (·.id)).Nodup
  doc_ids_lt : ∀ d ∈ db.documents, d.id < db.nextId
  sel_doc_exists : ∀ s ∈ db.selections, ∃ d ∈ db.documents, d.id = s.document
  sel_key_distinct : db.selections.Pairwise (fun a b => selKey a ≠ selKey b)

/-- The selection rows stored for one `(request, section_type)` section. -/
def sectionSelections (db : DB) (reqId : Nat) (st : String) :
    List AdminDocumentSelection :=
  db.selections.filter (fun s => s.request == reqId && s.section_type == st)

/-- The document ids selected in one `(request, section_type)` section. -/
def sectionDocs (db : DB) (reqId : Nat) (st : String) : List Nat :=
  (sectionSelections db reqId st).map (·.document)

/-- One invocation of a mutating view, with its request payload. -/
inductive Step where
  | category (name description : String) (request_id : Option String)
  | globalDocument (name description : String) (category_id : Option Nat)
      (print_group_ids : List Nat)
  | adhocDocument (rid name description : String) (category_id : Option Nat)
  | individualDocument (rid name description : String) (category_id : Option Nat)
  | printGroup (rid name description : String)
  | needsListDocument (rid name description : String)
      (category_id print_group_id : Option Nat)
  | saveSelections (rid section_type : String) (document_ids : List Nat)
      (print_group_id : Option Nat)
  | deleteAdhoc (rid : String) (selection_id : Nat)
  | uploadFile (rid : String) (selection_id : Nat) (file_name : String)
  | deleteUpload (rid : String) (upload_id : Nat)
  | acceptUpload (rid : String) (upload_id : Nat) (accepted : Bool)

/-- The state transition of one view invocation. -/
def applyStep (db : DB) : Step → DB
  | .category n d r => (create_category db n d r).db
  | .globalDocument n d c pgs => (create_document db n d c pgs).db
  | .adhocDocument rid n d c => (create_adhoc_document db rid n d c).db
  | .individualDocument rid n d c => (create_individual_document db rid n d c).db
  | .printGroup rid n d => (create_needs_list_print_group db rid n d).db
  | .needsListDocument rid n d c p => (create_needs_list_document db rid n d c p).db
  | .saveSelections rid st ids pg => (save_admin_selections db rid st ids pg).db
  | .deleteAdhoc rid selId => (delete_adhoc_document db rid selId).db
  | .uploadFile rid selId f => (upload_user_file db rid selId f).db
  | .deleteUpload rid upId => (delete_user_upload db rid upId).db
  | .acceptUpload rid upId a => (accept_user_upload db rid upId a).db

/-- Run a sequence of view invocations from a state. -/
def run : DB → List Step → DB
  | db, [] => db
  | db, s :: rest => run (applyStep db s) rest

/-- A state is reachable when some sequence of view invocations produces it
from the empty store. -/
def reachable (db : DB) : Prop := ∃ steps : List Step, run initDB steps = db

/-- A small populated store used to instantiate the general theorems: one
global category (id 0), three global documents `D1`/`D2`/`D3` (ids 1, 2, 3), a
request `"r"` (row id 4) with a request-scoped print group `PG` (id 5), and an
individual-section save of documents 1 and 2 (selection ids 6, 7). -/
def exDB : DB := run initDB [
  .category "Cat" "" none,
  .globalDocument "D1" "x" (some 0) [],
  .globalDocument "D2" "x" (some 0) [],
  .globalDocument "D3" "x" (some 0) [],
  .printGroup "r" "PG" "",
  .saveSelections "r" "individual" [1, 2] none ]

/-- The example store extended with a borrower upload (id 8, on selection 6)
that the admin has accepted. -/
def exDBUpload : DB :=
  run exDB [.uploadFile "r" 6 "f.pdf", .acceptUpload "r" 8 true]

/-- The example store extended with a request-scoped adhoc custom document
(document id 8, selection id 9) for request `"r"`. -/
def exDBAdhoc : DB :=
  run exDB [.adhocDocument "r" "Letter" "adhoc letter" (some 0)]

/-- A store with two needs-list print groups whose creation order (`B` first,
then `A`) is the reverse of their lexicographic order. -/
def exDBNeeds : DB := run initDB [
  .category "Cat" "" none,
  .printGroup "r" "B" "",
  .printGroup "r" "A" "",
  .needsListDocument "r" "Doc1" "d" (some 0) (some 2),
  .needsListDocument "r" "Doc2" "d" (some 0) (some 3) ]

/-! ### The executable string order agrees with the lexicographic order -/

theorem charListLE_iff_not_lex (x : List Char) : ∀ y : List Char,
    charListLE x y = true ↔ ¬ List.Lex (· < ·) y x := by
  induction x with
  | nil =>
    intro y
    simp only [charListLE]
    constructor
    · intro _ h; cases h
    · intro _; trivial
  | cons a as ih =>
    intro y
    cases y with
    | nil =>
      simp only [charListLE]
      constructor
      · intro h; cases h
      · intro h; exact absurd (List.Lex.nil) h
    | cons b bs =>
      simp only [charListLE]
      rcases lt_trichotomy a b with hab | hab | hab
      · rw [if_pos hab]
        constructor
        · intro _ h
          cases h with
          | cons h2 => exact absurd hab (lt_irrefl a)
          | rel h2 => exact absurd hab (lt_asymm h2)
        · intro _; rfl
      · subst hab
        rw [if_neg (lt_irrefl a), if_neg (lt_irrefl a), ih bs]
        constructor
        · intro h hl
          cases hl with
          | cons h2 => exact h h2
          | rel h2 => exact absurd h2 (lt_irrefl a)
        · intro h hl; exact h (List.Lex.cons hl)
      · rw [if_neg (lt_asymm hab), if_pos hab]
        apply iff_of_false
        · simp
        · exact not_not_intro (List.Lex.rel hab)

theorem strLE_iff_le (a b : String) : strLE a b = true ↔ a ≤ b := by
  rw [strLE, charListLE_iff_not_lex, String.le_iff_toList_le, ← not_lt]
  simp only [String.toList]
  exact Iff.rfl

instance : IsTotal (String × List DocEntry) pairKeyLE :=
  ⟨fun a b => by
    simp only [pairKeyLE, strLE_iff_le]
    exact le_total a.1 b.1⟩

instance : IsTrans (String × List DocEntry) pairKeyLE :=
  ⟨fun a b c h1 h2 => by
    simp only [pairKeyLE, strLE_iff_le] at h1 h2 ⊢
    exact le_trans h1 h2⟩

/-! ### Support lemmas about the primitive store operations -/

theorem getOrCreate_categories (db : DB) (rid : String) :
    (getOrCreate db rid).1.categories = db.categories := by
  unfold getOrCreate
  cases db.requests.find? (fun r => r.request_id == rid) <;> rfl

theorem getOrCreate_print_groups (db : DB) (rid : String) :
    (getOrCreate db rid).1.print_groups = db.print_groups := by
  unfold getOrCreate
  cases db.requests.find? (fun r => r.request_id == rid) <;> rfl

theorem getOrCreate_documents (db : DB) (rid : String) :
    (getOrCreate db rid).1.documents = db.documents := by
  unfold getOrCreate
  cases db.requests.find? (fun r => r.request_id == rid) <;> rfl

theorem getOrCreate_selections (db : DB) (rid : String) :
    (getOrCreate db rid).1.selections = db.selections := by
  unfold getOrCreate
  cases db.requests.find? (fun r => r.request_id == rid) <;> rfl

theorem getOrCreate_uploads (db : DB) (rid : String) :
    (getOrCreate db rid).1.uploads = db.uploads := by
  unfold getOrCreate
  cases db.requests.find? (fun r => r.request_id == rid) <;> rfl

theorem getOrCreate_req_request_id (db : DB) (rid : String) :
    (getOrCreate db rid).2.1.request_id = rid := by
  unfold getOrCreate
  cases h : db.requests.find? (fun r => r.request_id == rid) with
  | none => rfl
  | some r =>
    have := List.find?_some h
    simpa using this

theorem getOrCreate_found (db : DB) (rid : String) (req : DocumentRequest)
    (h : db.requests.find? (fun r => r.request_id == rid) = some req) :
    getOrCreate db rid = (db, req, false) := by
  unfold getOrCreate
  rw [h]

theorem getOrCreate_req_mem (db : DB) (rid : String) :
    (getOrCreate db rid).2.1 ∈ (getOrCreate db rid).1.requests := by
  unfold getOrCreate
  cases h : db.requests.find? (fun r => r.request_id == rid) with
  | none => exact List.mem_cons_self _ _
  | some r => exact List.mem_of_find?_eq_some h

theorem createSelections_selections (reqId : Nat) (st : String) (pg : Option Nat)
    (ds : List Document) : ∀ db : DB,
    (createSelections reqId st pg db ds).selections
      = (newBlock reqId st pg db.nextId ds).reverse ++ db.selections := by
  induction ds with
  | nil => intro db; rfl
  | cons d ds ih =>
    intro db
    simp only [createSelections]
    rw [ih]
    simp [newBlock, List.reverse_cons, List.append_assoc]

theorem createSelections_requests (reqId : Nat) (st : String) (pg : Option Nat)
    (ds : List Document) : ∀ db : DB,
    (createSelections reqId st pg db ds).requests = db.requests := by
  induction ds with
  | nil => intro db; rfl
  | cons d ds ih => intro db; simp only [createSelections]; rw [ih]

theorem createSelections_documents (reqId : Nat) (st : String) (pg : Option Nat)
    (ds : List Document) : ∀ db : DB,
    (createSelections reqId st pg db ds).documents = db.documents := by
  induction ds with
  | nil => intro db; rfl
  | cons d ds ih => intro db; simp only [createSelections]; rw [ih]

theorem createSelections_print_groups (reqId : Nat) (st : String) (pg : Option Nat)
    (ds : List Document) : ∀ db : DB,
    (createSelections reqId st pg db ds).print_groups = db.print_groups := by
  induction ds with
  | nil => intro db; rfl
  | cons d ds ih => intro db; simp only [createSelections]; rw [ih]

theorem createSelections_uploads (reqId : Nat) (st : String) (pg : Option Nat)
    (ds : List Document) : ∀ db : DB,
    (createSelections reqId st pg db ds).uploads = db.uploads := by
  induction ds with
  | nil => intro db; rfl
  | cons d ds ih => intro db; simp only [createSelections]; rw [ih]

theorem newBlock_map_document (reqId : Nat) (st : String) (pg : Option Nat)
    (ds : List Document) : ∀ n : Nat,
    (newBlock reqId st pg n ds).map (·.document) = ds.map (·.id) := by
  induction ds with
  | nil => intro n; rfl
  | cons d ds ih => intro n; simp [newBlock, ih]

theorem newBlock_fields (reqId : Nat) (st : String) (pg : Option Nat)
    (ds : List Document) : ∀ n : Nat, ∀ s ∈ newBlock reqId st pg n ds,
    s.request = reqId ∧ s.section_type = st ∧ s.print_group = pg := by
  induction ds with
  | nil => intro n s hs; cases hs
  | cons d ds ih =>
    intro n s hs
    simp only [newBlock, List.mem_cons] at hs
    rcases hs with rfl | hs
    · exact ⟨rfl, rfl, rfl⟩
    · exact ih (n + 1) s hs

theorem deleteSectionSelections_documents (db : DB) (r : Nat) (st : String) :
    (deleteSectionSelections db r st).documents = db.documents := rfl

theorem deleteSectionSelections_print_groups (db : DB) (r : Nat) (st : String) :
    (deleteSectionSelections db r st).print_groups = db.print_groups := rfl

theorem deleteSectionSelections_requests (db : DB) (r : Nat) (st : String) :
    (deleteSectionSelections db r st).requests = db.requests := rfl

theorem deleteSectionSelections_nextId (db : DB) (r : Nat) (st : String) :
    (deleteSectionSelections db r st).nextId = db.nextId := rfl

theorem deleteSectionSelections_selections (db : DB) (r : Nat) (st : String) :
    (deleteSectionSelections db r st).selections
      = db.selections.filter (fun s => !(s.request == r && s.section_type == st)) := rfl

theorem sectionSelections_deleteSection_self (db : DB) (r : Nat) (st : String) :
    sectionSelections (deleteSectionSelections db r st) r st = [] := by
  simp only [sectionSelections, deleteSectionSelections, List.filter_filter]
  apply List.filter_eq_nil_iff.mpr
  intro s _
  simp

theorem saveCore_db_selections (db1 : DB) (r : Nat) (st : String)
    (docs : List Document) (pg : Option Nat) (c0 : List DB) :
    (saveCore db1 r st docs pg c0).db.selections
      = (newBlock r st pg db1.nextId (docs.insertionSort docNameLE)).reverse
          ++ (deleteSectionSelections db1 r st).selections := by
  simp [saveCore, createSelections_selections, deleteSectionSelections_nextId]

theorem saveCore_db_requests (db1 : DB) (r : Nat) (st : String)
    (docs : List Document) (pg : Option Nat) (c0 : List DB) :
    (saveCore db1 r st docs pg c0).db.requests = db1.requests := by
  simp [saveCore, createSelections_requests, deleteSectionSelections_requests]

theorem saveCore_db_documents (db1 : DB) (r : Nat) (st : String)
    (docs : List Document) (pg : Option Nat) (c0 : List DB) :
    (saveCore db1 r st docs pg c0).db.documents = db1.documents := by
  simp [saveCore, createSelections_documents, deleteSectionSelections_documents]

theorem saveCore_db_print_groups (db1 : DB) (r : Nat) (st : String)
    (docs : List Document) (pg : Option Nat) (c0 : List DB) :
    (saveCore db1 r st docs pg c0).db.print_groups = db1.print_groups := by
  simp [saveCore, createSelections_print_groups, deleteSectionSelections_print_groups]

theorem saveCore_resp (db1 : DB) (r : Nat) (st : String)
    (docs : List Document) (pg : Option Nat) (c0 : List DB) :
    (saveCore db1 r st docs pg c0).resp = .ok 201 := rfl

theorem saveCore_sectionSelections (db1 : DB) (r : Nat) (st : String)
    (docs : List Document) (pg : Option Nat) (c0 : List DB) :
    sectionSelections (saveCore db1 r st docs pg c0).db r st
      = (newBlock r st pg db1.nextId (docs.insertionSort docNameLE)).reverse := by
  rw [sectionSelections, saveCore_db_selections, List.filter_append]
  have h1 : ((newBlock r st pg db1.nextId (docs.insertionSort docNameLE)).reverse.filter
      (fun s => s.request == r && s.section_type == st))
      = (newBlock r st pg db1.nextId (docs.insertionSort docNameLE)).reverse := by
    apply List.filter_eq_self.mpr
    intro s hs
    rw [List.mem_reverse] at hs
    obtain ⟨h1, h2, _⟩ := newBlock_fields r st pg _ _ s hs
    simp [h1, h2]
  have h2 : ((deleteSectionSelections db1 r st).selections.filter
      (fun s => s.request == r && s.section_type == st)) = [] := by
    have := sectionSelections_deleteSection_self db1 r st
    simpa [sectionSelections] using this
  rw [h1, h2, List.append_nil]

/-- Unfolding lemma for `save_admin_selections` on the success path. -/
theorem save_admin_selections_success
    (db : DB) (rid st : String) (ids : List Nat) (pgopt : Option Nat)
    (hst : st = "adhoc" ∨ st = "individual" ∨ st = "needs_list")
    (hne : ids ≠ [])
    (hlen : ((getOrCreate db rid).1.documents.filter
        (fun d => ids.contains d.id)).length = ids.length) :
    (pgopt = none → st ≠ "needs_list" →
      save_admin_selections db rid st ids pgopt
        = saveCore (getOrCreate db rid).1 (getOrCreate db rid).2.1.id st
            ((getOrCreate db rid).1.documents.filter (fun d => ids.contains d.id))
            none (if (getOrCreate db rid).2.2 then [(getOrCreate db rid).1] else [])) ∧
    (∀ pgid p, pgopt = some pgid →
      (getOrCreate db rid).1.print_groups.find? (fun q => q.id == pgid) = some p →
      save_admin_selections db rid st ids pgopt
        = saveCore (getOrCreate db rid).1 (getOrCreate db rid).2.1.id st
            ((getOrCreate db rid).1.documents.filter (fun d => ids.contains d.id))
            (some p.id) (if (getOrCreate db rid).2.2 then [(getOrCreate db rid).1] else [])) := by
  constructor
  · intro hpg hstn
    subst hpg
    simp only [save_admin_selections]
    rw [if_neg (not_not_intro hst), if_neg hne,
      if_neg (fun h => hstn h.1), if_neg (fun h => h hlen)]
  · intro pgid p hpg hfind
    subst hpg
    simp only [save_admin_selections]
    rw [if_neg (not_not_intro hst), if_neg hne,
      if_neg (fun h => Option.noConfusion h.2), if_neg (fun h => h hlen)]
    rw [hfind]

theorem mem_filterDocs (db : DB) (ids : List Nat)
    (hex : ∀ i ∈ ids, ∃ d ∈ db.documents, d.id = i) (i : Nat) :
    i ∈ (db.documents.filter (fun d => ids.contains d.id)).map (·.id) ↔ i ∈ ids := by
  constructor
  · intro h
    obtain ⟨d, hd, rfl⟩ := List.mem_map.mp h
    have := (List.mem_filter.mp hd).2
    simpa using this
  · intro hi
    obtain ⟨d, hd, rfl⟩ := hex i hi
    exact List.mem_map.mpr ⟨d, List.mem_filter.mpr ⟨hd, by simpa using hi⟩, rfl⟩

theorem filterDocs_map_id_nodup (db : DB) (ids : List Nat)
    (h : (db.documents.map (·.id)).Nodup) :
    ((db.documents.filter (fun d => ids.contains d.id)).map (·.id)).Nodup :=
  (List.Sublist.map (fun d : Document => d.id)
    (List.filter_sublist db.documents)).nodup h

theorem filterDocs_length (db : DB) (ids : List Nat) (hnd : ids.Nodup)
    (hdocnd : (db.documents.map (·.id)).Nodup)
    (hex : ∀ i ∈ ids, ∃ d ∈ db.documents, d.id = i) :
    (db.documents.filter (fun d => ids.contains d.id)).length = ids.length := by
  have hperm : ((db.documents.filter (fun d => ids.contains d.id)).map (·.id)).Perm ids :=
    (List.perm_ext_iff_of_nodup (filterDocs_map_id_nodup db ids hdocnd) hnd).mpr
      (mem_filterDocs db ids hex)
  have := hperm.length_eq
  simpa using this

theorem saveCore_sectionDocs_mem (db1 : DB) (r : Nat) (st : String)
    (docs : List Document) (pg : Option Nat) (c0 : List DB) (i : Nat) :
    i ∈ sectionDocs (saveCore db1 r st docs pg c0).db r st ↔ i ∈ docs.map (·.id) := by
  rw [sectionDocs, saveCore_sectionSelections, List.map_reverse,
    newBlock_map_document]
  rw [List.mem_reverse]
  exact ((List.perm_insertionSort docNameLE docs).map (·.id)).mem_iff

theorem saveCore_sectionDocs_nodup (db1 : DB) (r : Nat) (st : String)
    (docs : List Document) (pg : Option Nat) (c0 : List DB)
    (h : (docs.map (·.id)).Nodup) :
    (sectionDocs (saveCore db1 r st docs pg c0).db r st).Nodup := by
  rw [sectionDocs, saveCore_sectionSelections, List.map_reverse,
    newBlock_map_document, List.nodup_reverse]
  exact (((List.perm_insertionSort docNameLE docs).map (·.id)).nodup_iff).mpr h

/-- When every needs-list selection in the processed run carries the same
group label `k`, the fold produces at most the single group `k`, holding the
run's needs entries in order. -/
theorem buildFold_needs (db : DB) (k : String) :
    ∀ L : List AdminDocumentSelection,
    (∀ s ∈ L, s.section_type = "needs_list" → pgName db s = k) →
    ∀ v : RequestView,
      (v.needs_list = [] →
        (buildFold db L v).needs_list
          = if needsEntries db L = [] then [] else [(k, needsEntries db L)]) ∧
      (∀ es0, v.needs_list = [(k, es0)] →
        (buildFold db L v).needs_list = [(k, es0 ++ needsEntries db L)]) := by
  intro L
  induction L with
  | nil =>
    intro _ v
    constructor
    · intro hv; simpa [buildFold, needsEntries] using hv
    · intro es0 hv; simpa [buildFold, needsEntries] using hv
  | cons s rest ih =>
    intro h v
    have hks : s.section_type = "needs_list" → pgName db s = k :=
      h s (List.mem_cons_self s rest)
    have hrest : ∀ t ∈ rest, t.section_type = "needs_list" → pgName db t = k :=
      fun t ht => h t (List.mem_cons_of_mem s ht)
    cases hentry : selectionEntry db s with
    | none =>
      simp only [buildFold, hentry]
      have hf : (if s.section_type = "needs_list" then selectionEntry db s else none)
          = none := by
        by_cases hty : s.section_type = "needs_list" <;> simp [hty, hentry]
      constructor
      · intro hv
        rw [show needsEntries db (s :: rest) = needsEntries db rest from by
          simp [needsEntries, List.filterMap_cons, hf]]
        exact (ih hrest v).1 hv
      · intro es0 hv
        rw [show needsEntries db (s :: rest) = needsEntries db rest from by
          simp [needsEntries, List.filterMap_cons, hf]]
        exact (ih hrest v).2 es0 hv
    | some e =>
      simp only [buildFold, hentry]
      by_cases hty1 : s.section_type = "adhoc"
      · have hne : needsEntries db (s :: rest) = needsEntries db rest := by
          simp [needsEntries, List.filterMap_cons, hty1]
        rw [if_pos hty1, hne]
        exact ih hrest
          { adhoc := v.adhoc ++ [e], individual := v.individual,
            needs_list := v.needs_list }
      · rw [if_neg hty1]
        by_cases hty2 : s.section_type = "individual"
        · have hne : needsEntries db (s :: rest) = needsEntries db rest := by
            simp [needsEntries, List.filterMap_cons, hty2]
          rw [if_pos hty2, hne]
          exact ih hrest
            { adhoc := v.adhoc, individual := v.individual ++ [e],
              needs_list := v.needs_list }
        · rw [if_neg hty2]
          by_cases hty3 : s.section_type = "needs_list"
          · have hkk : pgName db s = k := hks hty3
            have hne : needsEntries db (s :: rest) = e :: needsEntries db rest := by
              simp [needsEntries, List.filterMap_cons, hty3, hentry]
            rw [if_pos hty3, hkk, hne]
            constructor
            · intro hv
              rw [hv]
              have := (ih hrest { v with needs_list := addNeedsEntry [] k e }).2 [e]
                (by simp [addNeedsEntry])
              rw [this]
              simp
            · intro es0 hv
              rw [hv]
              have := (ih hrest
                { v with needs_list := addNeedsEntry [(k, es0)] k e }).2 (es0 ++ [e])
                (by simp [addNeedsEntry])
              rw [this]
              simp
          · have hne : needsEntries db (s :: rest) = needsEntries db rest := by
              simp [needsEntries, List.filterMap_cons, hty3]
            rw [if_neg hty3, hne]
            exact ih hrest v

theorem mem_sortedReqSelections (db : DB) (reqId : Nat)
    (s : AdminDocumentSelection) :
    s ∈ (db.selections.filter (fun t => t.request == reqId)).insertionSort selLE
      ↔ s ∈ db.selections ∧ s.request = reqId := by
  rw [(List.perm_insertionSort selLE _).mem_iff, List.mem_filter,
    beq_iff_eq]

theorem selectionEntry_some_spec (db : DB) (sel : AdminDocumentSelection)
    (e : DocEntry) (h : selectionEntry db sel = some e) :
    e.document_id = sel.document ∧ e.selection_id = sel.id := by
  unfold selectionEntry at h
  cases hf : db.documents.find? (fun d => d.id == sel.document) with
  | none => rw [hf] at h; cases h
  | some d =>
    rw [hf] at h
    have hd := List.find?_some hf
    simp only [beq_iff_eq] at hd
    simp only [Option.map_some'] at h
    cases h
    exact ⟨hd, rfl⟩

theorem selectionEntry_isSome_of_doc (db : DB) (sel : AdminDocumentSelection)
    (h : ∃ d ∈ db.documents, d.id = sel.document) :
    ∃ e, selectionEntry db sel = some e ∧ e.document_id = sel.document := by
  obtain ⟨d, hd, hid⟩ := h
  have : (db.documents.find? (fun d => d.id == sel.document)).isSome := by
    rw [List.find?_isSome]
    exact ⟨d, hd, by simp [hid]⟩
  obtain ⟨d2, hd2⟩ := Option.isSome_iff_exists.mp this
  refine ⟨⟨sel.id, d2.id, d2.name, d2.description, uploadsFor db sel.id⟩, ?_, ?_⟩
  · unfold selectionEntry
    rw [hd2]
    rfl
  · have := List.find?_some hd2
    simpa using this

theorem addNeedsEntry_sources (k0 : String) (e0 : DocEntry) :
    ∀ (m : List (String × List DocEntry)) (k : String) (es : List DocEntry)
      (e : DocEntry),
    (k, es) ∈ addNeedsEntry m k0 e0 → e ∈ es →
    (∃ es1, (k, es1) ∈ m ∧ e ∈ es1) ∨ e = e0 := by
  intro m
  induction m with
  | nil =>
    intro k es e hm he
    simp only [addNeedsEntry, List.mem_singleton, Prod.mk.injEq] at hm
    right
    rw [hm.2] at he
    simpa using he
  | cons p rest ih =>
    intro k es e hm he
    obtain ⟨k1, es1⟩ := p
    simp only [addNeedsEntry] at hm
    by_cases hk : k1 = k0
    · rw [if_pos hk] at hm
      rcases List.mem_cons.mp hm with heq | hm2
      · obtain ⟨h1, h2⟩ := Prod.mk.injEq .. ▸ heq
        rw [h2] at he
        rcases List.mem_append.mp he with he1 | he0
        · left
          exact ⟨es1, by rw [h1]; exact List.mem_cons_self _ _, he1⟩
        · right
          simpa using he0
      · left
        exact ⟨es, List.mem_cons_of_mem _ hm2, he⟩
    · rw [if_neg hk] at hm
      rcases List.mem_cons.mp hm with heq | hm2
      · left
        exact ⟨es, by rw [heq]; exact List.mem_cons_self _ _, he⟩
      · rcases ih k es e hm2 he with ⟨es2, hes2, he2⟩ | he0
        · left
          exact ⟨es2, List.mem_cons_of_mem _ hes2, he2⟩
        · right
          exact he0

/-- Every document entry in the assembled view originates either from the
initial accumulator or from a processed selection. -/
theorem buildFold_entry_sources (db : DB) :
    ∀ (L : List AdminDocumentSelection) (v : RequestView),
    (∀ e ∈ (buildFold db L v).adhoc,
       e ∈ v.adhoc ∨ ∃ s ∈ L, selectionEntry db s = some e) ∧
    (∀ e ∈ (buildFold db L v).individual,
       e ∈ v.individual ∨ ∃ s ∈ L, selectionEntry db s = some e) ∧
    (∀ k es e, (k, es) ∈ (buildFold db L v).needs_list → e ∈ es →
       (∃ es1, (k, es1) ∈ v.needs_list ∧ e ∈ es1) ∨
       ∃ s ∈ L, selectionEntry db s = some e) := by
  intro L
  induction L with
  | nil =>
    intro v
    refine ⟨fun e he => Or.inl he, fun e he => Or.inl he, fun k es e hm he => ?_⟩
    exact Or.inl ⟨es, hm, he⟩
  | cons sel rest ih =>
    intro v
    cases hentry : selectionEntry db sel with
    | none =>
      simp only [buildFold, hentry]
      refine ⟨fun e he => ?_, fun e he => ?_, fun k es e hm he => ?_⟩
      · rcases (ih v).1 e he with h | ⟨s, hs, hse⟩
        · exact Or.inl h
        · exact Or.inr ⟨s, List.mem_cons_of_mem _ hs, hse⟩
      · rcases (ih v).2.1 e he with h | ⟨s, hs, hse⟩
        · exact Or.inl h
        · exact Or.inr ⟨s, List.mem_cons_of_mem _ hs, hse⟩
      · rcases (ih v).2.2 k es e hm he with h | ⟨s, hs, hse⟩
        · exact Or.inl h
        · exact Or.inr ⟨s, List.mem_cons_of_mem _ hs, hse⟩
    | some e0 =>
      simp only [buildFold, hentry]
      by_cases hty1 : sel.section_type = "adhoc"
      · rw [if_pos hty1]
        refine ⟨fun e he => ?_, fun e he => ?_, fun k es e hm he => ?_⟩
        · rcases (ih _).1 e he with h | ⟨s, hs, hse⟩
          · rcases List.mem_append.mp h with h1 | h1
            · exact Or.inl h1
            · exact Or.inr ⟨sel, List.mem_cons_self _ _, by
                rw [hentry]; rw [List.mem_singleton.mp h1]⟩
          · exact Or.inr ⟨s, List.mem_cons_of_mem _ hs, hse⟩
        · rcases (ih _).2.1 e he with h | ⟨s, hs, hse⟩
          · exact Or.inl h
          · exact Or.inr ⟨s, List.mem_cons_of_mem _ hs, hse⟩
        · rcases (ih _).2.2 k es e hm he with h | ⟨s, hs, hse⟩
          · exact Or.inl h
          · exact Or.inr ⟨s, List.mem_cons_of_mem _ hs, hse⟩
      · rw [if_neg hty1]
        by_cases hty2 : sel.section_type = "individual"
        · rw [if_pos hty2]
          refine ⟨fun e he => ?_, fun e he => ?_, fun k es e hm he => ?_⟩
          · rcases (ih _).1 e he with h | ⟨s, hs, hse⟩
            · exact Or.inl h
            · exact Or.inr ⟨s, List.mem_cons_of_mem _ hs, hse⟩
          · rcases (ih _).2.1 e he with h | ⟨s, hs, hse⟩
            · rcases List.mem_append.mp h with h1 | h1
              · exact Or.inl h1
              · exact Or.inr ⟨sel, List.mem_cons_self _ _, by
                  rw [hentry]; rw [List.mem_singleton.mp h1]⟩
            · exact Or.inr ⟨s, List.mem_cons_of_mem _ hs, hse⟩
          · rcases (ih _).2.2 k es e hm he with h | ⟨s, hs, hse⟩
            · exact Or.inl h
            · exact Or.inr ⟨s, List.mem_cons_of_mem _ hs, hse⟩
        · rw [if_neg hty2]
          by_cases hty3 : sel.section_type = "needs_list"
          · rw [if_pos hty3]
            refine ⟨fun e he => ?_, fun e he => ?_, fun k es e hm he => ?_⟩
            · rcases (ih _).1 e he with h | ⟨s, hs, hse⟩
              · exact Or.inl h
              · exact Or.inr ⟨s, List.mem_cons_of_mem _ hs, hse⟩
            · rcases (ih _).2.1 e he with h | ⟨s, hs, hse⟩
              · exact Or.inl h
              · exact Or.inr ⟨s, List.mem_cons_of_mem _ hs, hse⟩
            · rcases (ih _).2.2 k es e hm he with h | ⟨s, hs, hse⟩
              · obtain ⟨es1, hes1, he1⟩ := h
                rcases addNeedsEntry_sources (pgName db sel) e0 v.needs_list
                    k es1 e hes1 he1 with ⟨es2, hes2, he2⟩ | heq
                · exact Or.inl ⟨es2, hes2, he2⟩
                · exact Or.inr ⟨sel, List.mem_cons_self _ _, by rw [hentry, heq]⟩
              · exact Or.inr ⟨s, List.mem_cons_of_mem _ hs, hse⟩
          · rw [if_neg hty3]
            refine ⟨fun e he => ?_, fun e he => ?_, fun k es e hm he => ?_⟩
            · rcases (ih v).1 e he with h | ⟨s, hs, hse⟩
              · exact Or.inl h
              · exact Or.inr ⟨s, List.mem_cons_of_mem _ hs, hse⟩
            · rcases (ih v).2.1 e he with h | ⟨s, hs, hse⟩
              · exact Or.inl h
              · exact Or.inr ⟨s, List.mem_cons_of_mem _ hs, hse⟩
            · rcases (ih v).2.2 k es e hm he with h | ⟨s, hs, hse⟩
              · exact Or.inl h
              · exact Or.inr ⟨s, List.mem_cons_of_mem _ hs, hse⟩

/-! ### Preservation of well-formedness -/

theorem getOrCreate_nextId_le (db : DB) (rid : String) :
    db.nextId ≤ (getOrCreate db rid).1.nextId := by
  unfold getOrCreate
  cases db.requests.find? (fun r => r.request_id == rid) with
  | some r => exact le_refl _
  | none => exact Nat.le_succ _

theorem getOrCreate_req_rid_nodup (db : DB) (rid : String)
    (h : (db.requests.map (·.request_id)).Nodup) :
    ((getOrCreate db rid).1.requests.map (·.request_id)).Nodup := by
  unfold getOrCreate
  cases hf : db.requests.find? (fun r => r.request_id == rid) with
  | some r => exact h
  | none =>
    rw [List.map_cons, List.nodup_cons]
    refine ⟨?_, h⟩
    intro hmem
    obtain ⟨r, hr, hrid⟩ := List.mem_map.mp hmem
    have := List.find?_eq_none.mp hf r hr
    exact this (by simp [hrid])

theorem getOrCreate_find_after (db : DB) (rid : String) :
    (getOrCreate db rid).1.requests.find? (fun r => r.request_id == rid)
      = some (getOrCreate db rid).2.1 := by
  unfold getOrCreate
  cases hf : db.requests.find? (fun r => r.request_id == rid) with
  | some r => exact hf
  | none => simp [List.find?]

theorem wf_getOrCreate (db : DB) (rid : String) (h : Wf db) :
    Wf (getOrCreate db rid).1 := by
  refine ⟨getOrCreate_req_rid_nodup db rid h.req_rid_nodup, ?_, ?_, ?_, ?_⟩
  · rw [getOrCreate_documents]; exact h.doc_ids_nodup
  · intro d hd
    rw [getOrCreate_documents] at hd
    exact lt_of_lt_of_le (h.doc_ids_lt d hd) (getOrCreate_nextId_le db rid)
  · intro s hs
    rw [getOrCreate_selections] at hs
    rw [getOrCreate_documents]
    exact h.sel_doc_exists s hs
  · rw [getOrCreate_selections]
    exact h.sel_key_distinct

theorem wf_add_category (db : DB) (h : Wf db) (c : Category) :
    Wf { db with categories := c :: db.categories, nextId := db.nextId + 1 } := by
  refine ⟨h.req_rid_nodup, h.doc_ids_nodup, ?_, h.sel_doc_exists, h.sel_key_distinct⟩
  intro d hd
  exact Nat.lt_succ_of_lt (h.doc_ids_lt d hd)

theorem wf_add_print_group (db : DB) (h : Wf db) (p : PrintGroup) :
    Wf { db with print_groups := p :: db.print_groups, nextId := db.nextId + 1 } := by
  refine ⟨h.req_rid_nodup, h.doc_ids_nodup, ?_, h.sel_doc_exists, h.sel_key_distinct⟩
  intro d hd
  exact Nat.lt_succ_of_lt (h.doc_ids_lt d hd)

theorem wf_add_document (db : DB) (h : Wf db) (name desc : String) (cid : Nat)
    (pgs : List Nat) (r : Option Nat) :
    Wf { db with
      documents := ⟨db.nextId, name, desc, cid, pgs, r⟩ :: db.documents,
      nextId := db.nextId + 1 } := by
  refine ⟨h.req_rid_nodup, ?_, ?_, ?_, h.sel_key_distinct⟩
  · rw [List.map_cons, List.nodup_cons]
    refine ⟨?_, h.doc_ids_nodup⟩
    intro hmem
    obtain ⟨d, hd, hid⟩ := List.mem_map.mp hmem
    have hlt := h.doc_ids_lt d hd
    simp only at hid
    rw [hid] at hlt
    exact lt_irrefl _ hlt
  · intro d hd
    rcases List.mem_cons.mp hd with rfl | hd
    · exact Nat.lt_succ_self _
    · exact Nat.lt_succ_of_lt (h.doc_ids_lt d hd)
  · intro s hs
    obtain ⟨d, hd, hid⟩ := h.sel_doc_exists s hs
    exact ⟨d, List.mem_cons_of_mem _ hd, hid⟩

theorem wf_add_selection_fresh_doc (db : DB) (h : Wf db) (reqid : Nat)
    (st : String) (m : Nat) (pg : Option Nat)
    (hdoc : ∃ d ∈ db.documents, d.id = m)
    (hfresh : ∀ s ∈ db.selections, s.document ≠ m) :
    Wf { db with
      selections := ⟨db.nextId, reqid, st, m, pg, db.nextId⟩ :: db.selections,
      nextId := db.nextId + 1 } := by
  refine ⟨h.req_rid_nodup, h.doc_ids_nodup, ?_, ?_, ?_⟩
  · intro d hd
    exact Nat.lt_succ_of_lt (h.doc_ids_lt d hd)
  · intro s hs
    rcases List.mem_cons.mp hs with rfl | hs
    · exact hdoc
    · exact h.sel_doc_exists s hs
  · rw [List.pairwise_cons]
    refine ⟨?_, h.sel_key_distinct⟩
    intro s hs hkey
    have : m = s.document := congrArg (fun t : Nat × String × Nat × Option Nat => t.2.2.1) hkey
    exact hfresh s hs this.symm

theorem wf_map_documents (db : DB) (h : Wf db) (f : Document → Document)
    (hf : ∀ d, (f d).id = d.id) :
    Wf { db with documents := db.documents.map f } := by
  have hids : (db.documents.map f).map (·.id) = db.documents.map (·.id) := by
    rw [List.map_map]
    exact List.map_congr_left (fun d _ => hf d)
  refine ⟨h.req_rid_nodup, ?_, ?_, ?_, h.sel_key_distinct⟩
  · rw [hids]; exact h.doc_ids_nodup
  · intro d hd
    obtain ⟨d0, hd0, rfl⟩ := List.mem_map.mp hd
    rw [hf]
    exact h.doc_ids_lt d0 hd0
  · intro s hs
    obtain ⟨d, hd, hid⟩ := h.sel_doc_exists s hs
    exact ⟨f d, List.mem_map_of_mem f hd, by rw [hf]; exact hid⟩

theorem selKey_eq_document {a b : AdminDocumentSelection}
    (h : selKey a = selKey b) : a.document = b.document :=
  congrArg (fun t : Nat × String × Nat × Option Nat => t.2.2.1) h

theorem selKey_eq_request {a b : AdminDocumentSelection}
    (h : selKey a = selKey b) : a.request = b.request :=
  congrArg (fun t : Nat × String × Nat × Option Nat => t.1) h

theorem selKey_eq_section {a b : AdminDocumentSelection}
    (h : selKey a = selKey b) : a.section_type = b.section_type :=
  congrArg (fun t : Nat × String × Nat × Option Nat => t.2.1) h

theorem newBlock_pairwise (r : Nat) (st : String) (pg : Option Nat)
    (ds : List Document) (h : (ds.map (·.id)).Nodup) (n : Nat) :
    (newBlock r st pg n ds).Pairwise (fun a b => selKey a ≠ selKey b) := by
  have hnd : ((newBlock r st pg n ds).map (·.document)).Nodup := by
    rw [newBlock_map_document]
    exact h
  unfold List.Nodup at hnd
  rw [List.pairwise_map] at hnd
  exact hnd.imp (fun hne hkey => hne (selKey_eq_document hkey))

theorem createSelections_nextId (reqId : Nat) (st : String) (pg : Option Nat)
    (ds : List Document) : ∀ db : DB,
    db.nextId ≤ (createSelections reqId st pg db ds).nextId := by
  induction ds with
  | nil => intro db; exact le_refl _
  | cons d ds ih =>
    intro db
    simp only [createSelections]
    exact le_trans (Nat.le_succ _) (ih
      { db with
        selections := ⟨db.nextId, reqId, st, d.id, pg, db.nextId⟩ :: db.selections,
        nextId := db.nextId + 1 })

theorem saveCore_nextId_le (db1 : DB) (r : Nat) (st : String)
    (docs : List Document) (pg : Option Nat) (c0 : List DB) :
    db1.nextId ≤ (saveCore db1 r st docs pg c0).db.nextId := by
  simp only [saveCore]
  exact createSelections_nextId r st pg _ (deleteSectionSelections db1 r st)

theorem wf_deleteSectionSelections (db : DB) (r : Nat) (st : String) (h : Wf db) :
    Wf (deleteSectionSelections db r st) := by
  refine ⟨h.req_rid_nodup, h.doc_ids_nodup, h.doc_ids_lt, ?_, ?_⟩
  · intro s hs
    rw [deleteSectionSelections_selections] at hs
    exact h.sel_doc_exists s (List.mem_filter.mp hs).1
  · rw [deleteSectionSelections_selections]
    exact h.sel_key_distinct.sublist (List.filter_sublist _)

theorem wf_saveCore (db1 : DB) (reqid : Nat) (st : String) (docs : List Document)
    (pg : Option Nat) (c0 : List DB) (h : Wf db1)
    (hnd : (docs.map (·.id)).Nodup)
    (hsub : ∀ d ∈ docs, d ∈ db1.documents) :
    Wf (saveCore db1 reqid st docs pg c0).db := by
  have h2 := wf_deleteSectionSelections db1 reqid st h
  have hsortnd : ((docs.insertionSort docNameLE).map (·.id)).Nodup :=
    (((List.perm_insertionSort docNameLE docs).map (·.id)).nodup_iff).mpr hnd
  have hNBmem : ∀ s ∈ newBlock reqid st pg db1.nextId
      (docs.insertionSort docNameLE), ∃ d ∈ db1.documents, d.id = s.document := by
    intro s hs
    have : s.document ∈ (newBlock reqid st pg db1.nextId
        (docs.insertionSort docNameLE)).map (·.document) :=
      List.mem_map_of_mem _ hs
    rw [newBlock_map_document] at this
    obtain ⟨d, hd, hid⟩ := List.mem_map.mp this
    exact ⟨d, hsub d ((List.perm_insertionSort docNameLE docs).mem_iff.mp hd), hid⟩
  refine ⟨?_, ?_, ?_, ?_, ?_⟩
  · rw [saveCore_db_requests]; exact h.req_rid_nodup
  · rw [saveCore_db_documents]; exact h.doc_ids_nodup
  · intro d hd
    rw [saveCore_db_documents] at hd
    exact lt_of_lt_of_le (h.doc_ids_lt d hd) (saveCore_nextId_le db1 reqid st docs pg c0)
  · intro s hs
    rw [saveCore_db_selections] at hs
    rw [saveCore_db_documents]
    rcases List.mem_append.mp hs with hin | hin
    · exact hNBmem s (List.mem_reverse.mp hin)
    · rw [deleteSectionSelections_selections] at hin
      exact h.sel_doc_exists s (List.mem_filter.mp hin).1
  · rw [saveCore_db_selections]
    rw [List.pairwise_append]
    refine ⟨?_, h2.sel_key_distinct, ?_⟩
    · rw [List.pairwise_reverse]
      exact (newBlock_pairwise reqid st pg _ hsortnd db1.nextId).imp
        (fun hne => hne.symm)
    · intro a ha b hb hkey
      obtain ⟨har, has, -⟩ := newBlock_fields _ _ _ _ _ a (List.mem_reverse.mp ha)
      rw [deleteSectionSelections_selections] at hb
      have hbmem := (List.mem_filter.mp hb).2
      have hbr : b.request = reqid := by rw [← selKey_eq_request hkey, har]
      have hbs : b.section_type = st := by rw [← selKey_eq_section hkey, has]
      rw [hbr, hbs] at hbmem
      simp at hbmem

theorem wf_save_admin_selections (db : DB) (rid st : String) (ids : List Nat)
    (pg : Option Nat) (h : Wf db) :
    Wf (save_admin_selections db rid st ids pg).db := by
  have h1 := wf_getOrCreate db rid h
  have hnd : (((getOrCreate db rid).1.documents.filter
      (fun d => ids.contains d.id)).map (·.id)).Nodup :=
    filterDocs_map_id_nodup _ ids h1.doc_ids_nodup
  have hsub : ∀ d ∈ (getOrCreate db rid).1.documents.filter
      (fun d => ids.contains d.id), d ∈ (getOrCreate db rid).1.documents :=
    fun d hd => (List.mem_filter.mp hd).1
  simp only [save_admin_selections]
  split
  · exact h1
  · split
    · exact h1
    · split
      · exact h1
      · split
        · exact h1
        · split
          · split
            · exact h1
            · exact wf_saveCore _ _ _ _ _ _ h1 hnd hsub
          · exact wf_saveCore _ _ _ _ _ _ h1 hnd hsub

theorem wf_create_category (db : DB) (n d : String) (r : Option String)
    (h : Wf db) : Wf (create_category db n d r).db := by
  simp only [create_category]
  split
  · exact h
  · split
    · split
      · exact wf_getOrCreate db _ h
      · exact wf_add_category _ (wf_getOrCreate db _ h) _
    · split
      · exact h
      · exact wf_add_category _ h _

theorem wf_create_document (db : DB) (n d : String) (cid : Option Nat)
    (pgs : List Nat) (h : Wf db) : Wf (create_document db n d cid pgs).db := by
  simp only [create_document]
  split
  · exact h
  · split
    · exact h
    · split
      · exact h
      · exact wf_add_document db h _ _ _ _ _

theorem sel_document_ne_fresh (db : DB) (h : Wf db) :
    ∀ s ∈ db.selections, s.document ≠ db.nextId := by
  intro s hs heq
  obtain ⟨d, hd, hid⟩ := h.sel_doc_exists s hs
  rw [heq] at hid
  exact absurd (hid ▸ h.doc_ids_lt d hd) (lt_irrefl _)

theorem wf_create_adhoc_document (db : DB) (rid n d : String) (cid : Option Nat)
    (h : Wf db) : Wf (create_adhoc_document db rid n d cid).db := by
  have h1 := wf_getOrCreate db rid h
  simp only [create_adhoc_document]
  split
  · exact h1
  · split
    · exact h1
    · split
      · exact h1
      · refine wf_add_selection_fresh_doc _ (wf_add_document _ h1 _ _ _ _ _)
          _ _ _ _ ?_ ?_
        · exact ⟨_, List.mem_cons_self _ _, rfl⟩
        · intro s hs
          exact sel_document_ne_fresh _ h1 s hs

theorem wf_create_individual_document (db : DB) (rid n d : String)
    (cid : Option Nat) (h : Wf db) :
    Wf (create_individual_document db rid n d cid).db := by
  have h1 := wf_getOrCreate db rid h
  simp only [create_individual_document]
  split
  · exact h1
  · split
    · exact h1
    · split
      · exact h1
      · refine wf_add_selection_fresh_doc _ (wf_add_document _ h1 _ _ _ _ _)
          _ _ _ _ ?_ ?_
        · exact ⟨_, List.mem_cons_self _ _, rfl⟩
        · intro s hs
          exact sel_document_ne_fresh _ h1 s hs

theorem wf_create_needs_list_print_group (db : DB) (rid n d : String)
    (h : Wf db) : Wf (create_needs_list_print_group db rid n d).db := by
  have h1 := wf_getOrCreate db rid h
  simp only [create_needs_list_print_group]
  split
  · exact h1
  · exact wf_add_print_group _ h1 _

theorem wf_create_needs_list_document (db : DB) (rid n d : String)
    (cid pgid : Option Nat) (h : Wf db) :
    Wf (create_needs_list_document db rid n d cid pgid).db := by
  have h1 := wf_getOrCreate db rid h
  simp only [create_needs_list_document]
  split
  · exact h1
  · split
    · split
      · exact h1
      · split
        · exact h1
        · rename_i pgval hpg
          exact wf_add_selection_fresh_doc _
            (wf_map_documents _ (wf_add_document _ h1 _ _ _ _ _)
              (fun dd => if dd.id == (getOrCreate db rid).1.nextId
                then { dd with print_groups := dd.print_groups ++ [pgval.id] } else dd)
              (by
                intro d0
                dsimp only
                by_cases hd0 : (d0.id == (getOrCreate db rid).1.nextId) = true
                · rw [if_pos hd0]
                · rw [if_neg hd0])) _ _ _ _
            (by refine ⟨_, List.mem_map_of_mem _ (List.mem_cons_self _ _), ?_⟩; simp)
            (fun s hs => sel_document_ne_fresh _ h1 s hs)
    · exact h1

theorem wf_deleteSelectionRow (db : DB) (selId : Nat) (h : Wf db) :
    Wf (deleteSelectionRow db selId) := by
  refine ⟨h.req_rid_nodup, h.doc_ids_nodup, h.doc_ids_lt, ?_, ?_⟩
  · intro s hs
    exact h.sel_doc_exists s (List.mem_filter.mp hs).1
  · exact h.sel_key_distinct.sublist (List.filter_sublist _)

theorem wf_deleteDocumentCascade (db : DB) (docId : Nat) (h : Wf db) :
    Wf (deleteDocumentCascade db docId) := by
  refine ⟨h.req_rid_nodup, ?_, ?_, ?_, ?_⟩
  · simp only [deleteDocumentCascade]
    exact (List.Sublist.map (fun d : Document => d.id)
      (List.filter_sublist db.documents)).nodup h.doc_ids_nodup
  · intro d hd
    simp only [deleteDocumentCascade] at hd
    exact h.doc_ids_lt d (List.mem_filter.mp hd).1
  · intro s hs
    simp only [deleteDocumentCascade] at hs ⊢
    obtain ⟨hs1, hs2⟩ := List.mem_filter.mp hs
    obtain ⟨d0, hd0, hid0⟩ := h.sel_doc_exists s hs1
    refine ⟨d0, List.mem_filter.mpr ⟨hd0, ?_⟩, hid0⟩
    rw [hid0]
    exact hs2
  · simp only [deleteDocumentCascade]
    exact h.sel_key_distinct.sublist (List.filter_sublist _)

theorem wf_delete_adhoc_document (db : DB) (rid : String) (selId : Nat)
    (h : Wf db) : Wf (delete_adhoc_document db rid selId).db := by
  simp only [delete_adhoc_document]
  split
  · exact h
  · split
    · exact h
    · split
      · split
        · exact wf_deleteDocumentCascade _ _ (wf_deleteSelectionRow _ _ h)
        · exact wf_deleteSelectionRow _ _ h
      · exact wf_deleteSelectionRow _ _ h

theorem wf_upload_user_file (db : DB) (rid : String) (selId : Nat) (f : String)
    (h : Wf db) : Wf (upload_user_file db rid selId f).db := by
  simp only [upload_user_file]
  split
  · exact h
  · split
    · exact h
    · refine ⟨h.req_rid_nodup, h.doc_ids_nodup, ?_, h.sel_doc_exists,
        h.sel_key_distinct⟩
      intro d hd
      exact Nat.lt_succ_of_lt (h.doc_ids_lt d hd)

theorem wf_delete_user_upload (db : DB) (rid : String) (upId : Nat)
    (h : Wf db) : Wf (delete_user_upload db rid upId).db := by
  simp only [delete_user_upload]
  split
  · exact h
  · split
    · exact h
    · split
      · exact h
      · exact ⟨h.req_rid_nodup, h.doc_ids_nodup, h.doc_ids_lt,
          h.sel_doc_exists, h.sel_key_distinct⟩

theorem wf_accept_user_upload (db : DB) (rid : String) (upId : Nat) (acc : Bool)
    (h : Wf db) : Wf (accept_user_upload db rid upId acc).db := by
  simp only [accept_user_upload]
  split
  · exact h
  · split
    · exact h
    · refine ⟨h.req_rid_nodup, h.doc_ids_nodup, ?_, h.sel_doc_exists,
        h.sel_key_distinct⟩
      intro d hd
      exact Nat.lt_succ_of_lt (h.doc_ids_lt d hd)

theorem wf_initDB : Wf initDB := by
  refine ⟨List.nodup_nil, List.nodup_nil, ?_, ?_, List.Pairwise.nil⟩
  · intro d hd; cases hd
  · intro s hs; cases hs

theorem wf_applyStep (db : DB) (s : Step) (h : Wf db) : Wf (applyStep db s) := by
  cases s with
  | category n d r => exact wf_create_category db n d r h
  | globalDocument n d c pgs => exact wf_create_document db n d c pgs h
  | adhocDocument rid n d c => exact wf_create_adhoc_document db rid n d c h
  | individualDocument rid n d c => exact wf_create_individual_document db rid n d c h
  | printGroup rid n d => exact wf_create_needs_list_print_group db rid n d h
  | needsListDocument rid n d c p => exact wf_create_needs_list_document db rid n d c p h
  | saveSelections rid st ids pg => exact wf_save_admin_selections db rid st ids pg h
  | deleteAdhoc rid selId => exact wf_delete_adhoc_document db rid selId h
  | uploadFile rid selId f => exact wf_upload_user_file db rid selId f h
  | deleteUpload rid upId => exact wf_delete_user_upload db rid upId h
  | acceptUpload rid upId a => exact wf_accept_user_upload db rid upId a h

theorem wf_run (steps : List Step) : ∀ db : DB, Wf db → Wf (run db steps) := by
  induction steps with
  | nil => intro db h; exact h
  | cons s rest ih =>
    intro db h
    exact ih (applyStep db s) (wf_applyStep db s h)

theorem wf_reachable (db : DB) (h : reachable db) : Wf db := by
  obtain ⟨steps, hrun⟩ := h
  rw [← hrun]
  exact wf_run steps initDB wf_initDB

/-! ### Claim theorems -/

/-- C2: `replaceSection` (`save_admin_selections`) is section-wide
last-write-wins.  After a successful save for `(request, section_type)` with
document ids `ids`, the stored selections for that section reference exactly
one document per id in `ids` — whatever was selected before (e.g. doc1 from an
earlier save) is gone. -/
theorem c2_replace_section_last_write_wins
    (db : DB) (rid st : String) (ids : List Nat) (pgopt : Option Nat)
    (hst : st = "adhoc" ∨ st = "individual" ∨ st = "needs_list")
    (hne : ids ≠ []) (hnd : ids.Nodup)
    (hdocnd : (db.documents.map (·.id)).Nodup)
    (hex : ∀ i ∈ ids, ∃ d ∈ db.documents, d.id = i)
    (hpg : ∀ pgid, pgopt = some pgid →
      ∃ p, db.print_groups.find? (fun q => q.id == pgid) = some p)
    (hnl : st = "needs_list" → pgopt ≠ none) :
    (save_admin_selections db rid st ids pgopt).resp = .ok 201 ∧
    ∃ req ∈ (save_admin_selections db rid st ids pgopt).db.requests,
      req.request_id = rid ∧
      (sectionDocs (save_admin_selections db rid st ids pgopt).db req.id st).Nodup ∧
      ∀ i, i ∈ sectionDocs (save_admin_selections db rid st ids pgopt).db req.id st
        ↔ i ∈ ids := by
  have hdocs1 : (getOrCreate db rid).1.documents = db.documents :=
    getOrCreate_documents db rid
  have hlen : ((getOrCreate db rid).1.documents.filter
      (fun d => ids.contains d.id)).length = ids.length := by
    rw [hdocs1]; exact filterDocs_length db ids hnd hdocnd hex
  have hS := save_admin_selections_success db rid st ids pgopt hst hne hlen
  have hmain : ∃ pg, save_admin_selections db rid st ids pgopt
      = saveCore (getOrCreate db rid).1 (getOrCreate db rid).2.1.id st
          ((getOrCreate db rid).1.documents.filter (fun d => ids.contains d.id)) pg
          (if (getOrCreate db rid).2.2 then [(getOrCreate db rid).1] else []) := by
    cases hpgo : pgopt with
    | none =>
      rw [hpgo] at hS
      exact ⟨none, hS.1 rfl (fun h => absurd hpgo (hnl h))⟩
    | some pgid =>
      rw [hpgo] at hS
      obtain ⟨p, hp⟩ := hpg pgid hpgo
      refine ⟨some p.id, hS.2 pgid p rfl ?_⟩
      rw [getOrCreate_print_groups]
      exact hp
  obtain ⟨pg, heq⟩ := hmain
  rw [heq]
  refine ⟨saveCore_resp _ _ _ _ _ _, (getOrCreate db rid).2.1, ?_, ?_, ?_, ?_⟩
  · rw [saveCore_db_requests]
    exact getOrCreate_req_mem db rid
  · exact getOrCreate_req_request_id db rid
  · apply saveCore_sectionDocs_nodup
    rw [hdocs1]
    exact filterDocs_map_id_nodup db ids hdocnd
  · intro i
    rw [saveCore_sectionDocs_mem]
    rw [hdocs1]
    exact mem_filterDocs db ids hex i

/-- Witness for C2: in the populated example store, replacing the individual
section `[1, 2]` with `[2, 3]` succeeds and leaves exactly documents 2 and 3
selected (document 1 removed). -/
theorem c2_replace_section_last_write_wins_witness :
    (save_admin_selections exDB "r" "individual" [2, 3] none).resp = .ok 201 ∧
    ∃ req ∈ (save_admin_selections exDB "r" "individual" [2, 3] none).db.requests,
      req.request_id = "r" ∧
      (sectionDocs (save_admin_selections exDB "r" "individual" [2, 3] none).db
        req.id "individual").Nodup ∧
      ∀ i, i ∈ sectionDocs (save_admin_selections exDB "r" "individual" [2, 3] none).db
        req.id "individual" ↔ i ∈ [2, 3] :=
  c2_replace_section_last_write_wins exDB "r" "individual" [2, 3] none
    (by decide) (by decide) (by decide) (by decide)
    (by decide) (by intro pgid h; cases h) (by intro h; exact absurd h (by decide))

/-- C3: a needs-list save without a print group id always fails with HTTP 400
and writes no selection; with a print group id resolving to an existing
`PrintGroup`, the save succeeds and a subsequent
`_build_request_document_data` groups exactly the saved documents under that
print group's name. -/
theorem c3_needs_list_requires_print_group
    (db : DB) (rid : String) (ids : List Nat)
    (hne : ids ≠ []) (hnd : ids.Nodup)
    (hdocnd : (db.documents.map (·.id)).Nodup)
    (hex : ∀ i ∈ ids, ∃ d ∈ db.documents, d.id = i)
    (pgid : Nat) (pg : PrintGroup)
    (hp : db.print_groups.find? (fun q => q.id == pgid) = some pg) :
    ((save_admin_selections db rid "needs_list" ids none).resp
        = .err 400 "print_group_id is required for needs_list section" ∧
     (save_admin_selections db rid "needs_list" ids none).db.selections
        = db.selections) ∧
    ((save_admin_selections db rid "needs_list" ids (some pgid)).resp = .ok 201 ∧
     ∃ req ∈ (save_admin_selections db rid "needs_list" ids (some pgid)).db.requests,
       req.request_id = rid ∧
       ∃ es, (build_request_document_data
            (save_admin_selections db rid "needs_list" ids (some pgid)).db req).needs_list
          = [(pg.name, es)] ∧
         ∀ i, (∃ e ∈ es, e.document_id = i) ↔ i ∈ ids) := by
  constructor
  · constructor
    · simp only [save_admin_selections]
      rw [if_neg (not_not_intro (Or.inr (Or.inr trivial))), if_neg hne,
        if_pos ⟨trivial, trivial⟩]
    · simp only [save_admin_selections]
      rw [if_neg (not_not_intro (Or.inr (Or.inr trivial))), if_neg hne,
        if_pos ⟨trivial, trivial⟩]
      exact getOrCreate_selections db rid
  · have hdocs1 : (getOrCreate db rid).1.documents = db.documents :=
      getOrCreate_documents db rid
    have hlen : ((getOrCreate db rid).1.documents.filter
        (fun d => ids.contains d.id)).length = ids.length := by
      rw [hdocs1]; exact filterDocs_length db ids hnd hdocnd hex
    have hS := save_admin_selections_success db rid "needs_list" ids (some pgid)
      (Or.inr (Or.inr rfl)) hne hlen
    have hp1 : (getOrCreate db rid).1.print_groups.find? (fun q => q.id == pgid)
        = some pg := by
      rw [getOrCreate_print_groups]; exact hp
    have heq := hS.2 pgid pg rfl hp1
    rw [heq]
    have hpgid : pg.id = pgid := by
      have := List.find?_some hp
      simpa using this
    refine ⟨saveCore_resp _ _ _ _ _ _, (getOrCreate db rid).2.1, ?_,
      getOrCreate_req_request_id db rid, ?_⟩
    · rw [saveCore_db_requests]
      exact getOrCreate_req_mem db rid
    · -- abbreviations
      have hfinsel := saveCore_db_selections (getOrCreate db rid).1
        (getOrCreate db rid).2.1.id "needs_list"
        ((getOrCreate db rid).1.documents.filter (fun d => ids.contains d.id))
        (some pg.id)
        (if (getOrCreate db rid).2.2 then [(getOrCreate db rid).1] else [])
      have hfindocs := saveCore_db_documents (getOrCreate db rid).1
        (getOrCreate db rid).2.1.id "needs_list"
        ((getOrCreate db rid).1.documents.filter (fun d => ids.contains d.id))
        (some pg.id)
        (if (getOrCreate db rid).2.2 then [(getOrCreate db rid).1] else [])
      have hfinpgs := saveCore_db_print_groups (getOrCreate db rid).1
        (getOrCreate db rid).2.1.id "needs_list"
        ((getOrCreate db rid).1.documents.filter (fun d => ids.contains d.id))
        (some pg.id)
        (if (getOrCreate db rid).2.2 then [(getOrCreate db rid).1] else [])
      rw [build_request_document_data]
      -- every needs-list selection of the request in the final state comes
      -- from the freshly created block
      have hNB : ∀ s : AdminDocumentSelection,
          s ∈ ((saveCore (getOrCreate db rid).1 (getOrCreate db rid).2.1.id
              "needs_list"
              ((getOrCreate db rid).1.documents.filter (fun d => ids.contains d.id))
              (some pg.id)
              (if (getOrCreate db rid).2.2 then [(getOrCreate db rid).1] else [])).db.selections.filter
            (fun s => s.request == (getOrCreate db rid).2.1.id)).insertionSort selLE →
          s.section_type = "needs_list" →
          s ∈ newBlock (getOrCreate db rid).2.1.id "needs_list" (some pg.id)
              (getOrCreate db rid).1.nextId
              (((getOrCreate db rid).1.documents.filter
                (fun d => ids.contains d.id)).insertionSort docNameLE) := by
        intro s hsL hty
        obtain ⟨hsel, hreq⟩ := (mem_sortedReqSelections _ _ s).mp hsL
        rw [hfinsel] at hsel
        rcases List.mem_append.mp hsel with hin | hin
        · exact List.mem_reverse.mp hin
        · exfalso
          have := (List.mem_filter.mp hin).2
          rw [hreq, hty] at this
          simp at this
      have hk : ∀ s ∈ ((saveCore (getOrCreate db rid).1 (getOrCreate db rid).2.1.id
            "needs_list"
            ((getOrCreate db rid).1.documents.filter (fun d => ids.contains d.id))
            (some pg.id)
            (if (getOrCreate db rid).2.2 then [(getOrCreate db rid).1] else [])).db.selections.filter
          (fun s => s.request == (getOrCreate db rid).2.1.id)).insertionSort selLE,
          s.section_type = "needs_list" →
          pgName (saveCore (getOrCreate db rid).1 (getOrCreate db rid).2.1.id
            "needs_list"
            ((getOrCreate db rid).1.documents.filter (fun d => ids.contains d.id))
            (some pg.id)
            (if (getOrCreate db rid).2.2 then [(getOrCreate db rid).1] else [])).db s
            = pg.name := by
        intro s hsL hty
        have hsNB := hNB s hsL hty
        obtain ⟨-, -, hpgf⟩ := newBlock_fields _ _ _ _ _ s hsNB
        simp only [pgName, hpgf]
        rw [hfinpgs, getOrCreate_print_groups, hpgid, hp]
        rfl
      have haux := (buildFold_needs _ pg.name _ hk ⟨[], [], []⟩).1 rfl
      rw [haux]
      -- membership characterisation of the needs entries
      have hmem : ∀ i, (∃ e ∈ needsEntries
          (saveCore (getOrCreate db rid).1 (getOrCreate db rid).2.1.id "needs_list"
            ((getOrCreate db rid).1.documents.filter (fun d => ids.contains d.id))
            (some pg.id)
            (if (getOrCreate db rid).2.2 then [(getOrCreate db rid).1] else [])).db
          (((saveCore (getOrCreate db rid).1 (getOrCreate db rid).2.1.id "needs_list"
            ((getOrCreate db rid).1.documents.filter (fun d => ids.contains d.id))
            (some pg.id)
            (if (getOrCreate db rid).2.2 then [(getOrCreate db rid).1] else [])).db.selections.filter
            (fun s => s.request == (getOrCreate db rid).2.1.id)).insertionSort selLE),
          e.document_id = i) ↔ i ∈ ids := by
        intro i
        constructor
        · rintro ⟨e, he, rfl⟩
          obtain ⟨s, hsL, hfs⟩ := List.mem_filterMap.mp he
          by_cases hty : s.section_type = "needs_list"
          · rw [if_pos hty] at hfs
            have hdoc := (selectionEntry_some_spec _ _ _ hfs).1
            rw [hdoc]
            have hsNB := hNB s hsL hty
            have : s.document ∈ (newBlock (getOrCreate db rid).2.1.id "needs_list"
                (some pg.id) (getOrCreate db rid).1.nextId
                (((getOrCreate db rid).1.documents.filter
                  (fun d => ids.contains d.id)).insertionSort docNameLE)).map
                (·.document) :=
              List.mem_map_of_mem _ hsNB
            rw [newBlock_map_document] at this
            have : s.document ∈ ((getOrCreate db rid).1.documents.filter
                (fun d => ids.contains d.id)).map (·.id) :=
              (((List.perm_insertionSort docNameLE _).map (·.id)).mem_iff).mp this
            rw [hdocs1] at this
            exact (mem_filterDocs db ids hex _).mp this
          · rw [if_neg hty] at hfs
            cases hfs
        · intro hi
          have h1 : i ∈ ((getOrCreate db rid).1.documents.filter
              (fun d => ids.contains d.id)).map (·.id) := by
            rw [hdocs1]
            exact (mem_filterDocs db ids hex i).mpr hi
          have h2 : i ∈ (newBlock (getOrCreate db rid).2.1.id "needs_list"
              (some pg.id) (getOrCreate db rid).1.nextId
              (((getOrCreate db rid).1.documents.filter
                (fun d => ids.contains d.id)).insertionSort docNameLE)).map
              (·.document) := by
            rw [newBlock_map_document]
            exact (((List.perm_insertionSort docNameLE _).map (·.id)).mem_iff).mpr h1
          obtain ⟨s, hsNB, hsdoc⟩ := List.mem_map.mp h2
          obtain ⟨hsreq, hsty, -⟩ := newBlock_fields _ _ _ _ _ s hsNB
          have hsfin : s ∈ (saveCore (getOrCreate db rid).1
              (getOrCreate db rid).2.1.id "needs_list"
              ((getOrCreate db rid).1.documents.filter (fun d => ids.contains d.id))
              (some pg.id)
              (if (getOrCreate db rid).2.2 then [(getOrCreate db rid).1] else [])).db.selections := by
            rw [hfinsel]
            exact List.mem_append.mpr (Or.inl (List.mem_reverse.mpr hsNB))
          have hsL : s ∈ ((saveCore (getOrCreate db rid).1
              (getOrCreate db rid).2.1.id "needs_list"
              ((getOrCreate db rid).1.documents.filter (fun d => ids.contains d.id))
              (some pg.id)
              (if (getOrCreate db rid).2.2 then [(getOrCreate db rid).1] else [])).db.selections.filter
              (fun s => s.request == (getOrCreate db rid).2.1.id)).insertionSort selLE :=
            (mem_sortedReqSelections _ _ s).mpr ⟨hsfin, hsreq⟩
          obtain ⟨d, hd, hdi⟩ := hex i hi
          obtain ⟨e, hentry, hedoc⟩ := selectionEntry_isSome_of_doc _ s
            ⟨d, by rw [hfindocs, hdocs1]; exact hd, by rw [hdi, hsdoc]⟩
          refine ⟨e, List.mem_filterMap.mpr ⟨s, hsL, ?_⟩, ?_⟩
          · rw [if_pos hsty, hentry]
          · rw [hedoc, hsdoc]
      -- the needs entries are nonempty, so the view holds the single group
      obtain ⟨i0, hi0⟩ := List.exists_mem_of_ne_nil ids hne
      obtain ⟨e0, he0, -⟩ := (hmem i0).mpr hi0
      rw [if_neg (by intro hnil; rw [hnil] at he0; cases he0)]
      exact ⟨_, rfl, hmem⟩

/-- Witness for C3: on the example store, a needs-list save of document 3 for
request `"r"` without a print group is rejected, and with print group 5 (named
`PG`) succeeds, the view grouping exactly document 3 under `PG`. -/
theorem c3_needs_list_requires_print_group_witness :
    ((save_admin_selections exDB "r" "needs_list" [3] none).resp
        = .err 400 "print_group_id is required for needs_list section" ∧
     (save_admin_selections exDB "r" "needs_list" [3] none).db.selections
        = exDB.selections) ∧
    ((save_admin_selections exDB "r" "needs_list" [3] (some 5)).resp = .ok 201 ∧
     ∃ req ∈ (save_admin_selections exDB "r" "needs_list" [3] (some 5)).db.requests,
       req.request_id = "r" ∧
       ∃ es, (build_request_document_data
            (save_admin_selections exDB "r" "needs_list" [3] (some 5)).db req).needs_list
          = [((⟨5, "PG", "Print group: PG", some 4⟩ : PrintGroup).name, es)] ∧
         ∀ i, (∃ e ∈ es, e.document_id = i) ↔ i ∈ [3]) :=
  c3_needs_list_requires_print_group exDB "r" [3]
    (by decide) (by decide) (by decide) (by decide)
    5 ⟨5, "PG", "Print group: PG", some 4⟩ (by decide)

/-- C10: `replaceSection` with an empty `document_ids` collection fails with
HTTP 400 `document_ids is required`, leaves the stored selections untouched,
and no successful call can carry an empty id list — so the endpoint cannot
clear a section to empty. -/
theorem c10_empty_document_ids_rejected
    (db : DB) (rid st : String) (pgopt : Option Nat)
    (hst : st = "adhoc" ∨ st = "individual" ∨ st = "needs_list") :
    (save_admin_selections db rid st [] pgopt).resp
        = .err 400 "document_ids is required" ∧
    (save_admin_selections db rid st [] pgopt).db.selections = db.selections ∧
    ∀ ids : List Nat,
      (save_admin_selections db rid st ids pgopt).resp = .ok 201 → ids ≠ [] := by
  refine ⟨?_, ?_, ?_⟩
  · simp only [save_admin_selections]
    rw [if_neg (not_not_intro hst), if_pos trivial]
  · simp only [save_admin_selections]
    rw [if_neg (not_not_intro hst), if_pos trivial]
    exact getOrCreate_selections db rid
  · intro ids hok hnil
    subst hnil
    simp only [save_admin_selections] at hok
    rw [if_neg (not_not_intro hst), if_pos trivial] at hok
    exact Resp.noConfusion hok

/-- Witness for C10: the empty save on the example store is rejected with the
required error and changes no selections. -/
theorem c10_empty_document_ids_rejected_witness :
    (save_admin_selections exDB "r" "individual" [] none).resp
        = .err 400 "document_ids is required" ∧
    (save_admin_selections exDB "r" "individual" [] none).db.selections
        = exDB.selections ∧
    ∀ ids : List Nat,
      (save_admin_selections exDB "r" "individual" ids none).resp = .ok 201 →
        ids ≠ [] :=
  c10_empty_document_ids_rejected exDB "r" "individual" none (by decide)

/-- C1 counterexample: `replaceSection` is *not* one atomic unit.  In
`save_admin_selections` the section-wide delete runs as its own autocommit
before the `transaction.atomic()` block that creates the new selections, so a
committed state is observable in which the old selections (documents 1 and 2)
are deleted and the new one (document 3) is not yet created.  Likewise
`create_adhoc_document` commits the document creation separately from the
selection creation, so a state with the document (id 9) but no selection for
it is observable. -/
theorem c1_counterexample :
    (∃ s ∈ (save_admin_selections exDB "r" "individual" [3] none).commits,
      sectionDocs s 4 "individual" = [] ∧
      sectionDocs exDB 4 "individual" = [2, 1] ∧
      (save_admin_selections exDB "r" "individual" [3] none).resp = .ok 201 ∧
      sectionDocs (save_admin_selections exDB "r" "individual" [3] none).db
        4 "individual" = [3]) ∧
    (∃ s ∈ (create_adhoc_document exDB "q" "W2" "w2 doc" (some 0)).commits,
      (∃ d ∈ s.documents, d.id = 9) ∧
      ∀ sel ∈ s.selections, sel.document ≠ 9) := by decide

/-- C1 amended: only the creation loop of `save_admin_selections` is atomic.
On the success path every observable committed state of the call shows the
section either intact (pre-call contents), fully deleted (the autocommitted
delete), or fully replaced by the new ids — never a partial creation; the
deleted-but-not-yet-replaced state is genuinely observable. -/
theorem c1_amended_replace_commit_states
    (db : DB) (rid st : String) (ids : List Nat) (pgopt : Option Nat)
    (hst : st = "adhoc" ∨ st = "individual" ∨ st = "needs_list")
    (hne : ids ≠ []) (hnd : ids.Nodup)
    (hdocnd : (db.documents.map (·.id)).Nodup)
    (hex : ∀ i ∈ ids, ∃ d ∈ db.documents, d.id = i)
    (hpg : ∀ pgid, pgopt = some pgid →
      ∃ p, db.print_groups.find? (fun q => q.id == pgid) = some p)
    (hnl : st = "needs_list" → pgopt ≠ none) :
    ∃ req ∈ (save_admin_selections db rid st ids pgopt).db.requests,
      req.request_id = rid ∧
      ∀ s ∈ db :: (save_admin_selections db rid st ids pgopt).commits,
        (∀ i, i ∈ sectionDocs s req.id st ↔ i ∈ sectionDocs db req.id st) ∨
        sectionDocs s req.id st = [] ∨
        (∀ i, i ∈ sectionDocs s req.id st ↔ i ∈ ids) := by
  have hdocs1 : (getOrCreate db rid).1.documents = db.documents :=
    getOrCreate_documents db rid
  have hlen : ((getOrCreate db rid).1.documents.filter
      (fun d => ids.contains d.id)).length = ids.length := by
    rw [hdocs1]; exact filterDocs_length db ids hnd hdocnd hex
  have hS := save_admin_selections_success db rid st ids pgopt hst hne hlen
  have hmain : ∃ pg, save_admin_selections db rid st ids pgopt
      = saveCore (getOrCreate db rid).1 (getOrCreate db rid).2.1.id st
          ((getOrCreate db rid).1.documents.filter (fun d => ids.contains d.id)) pg
          (if (getOrCreate db rid).2.2 then [(getOrCreate db rid).1] else []) := by
    cases hpgo : pgopt with
    | none =>
      rw [hpgo] at hS
      exact ⟨none, hS.1 rfl (fun h => absurd hpgo (hnl h))⟩
    | some pgid =>
      rw [hpgo] at hS
      obtain ⟨p, hp⟩ := hpg pgid hpgo
      refine ⟨some p.id, hS.2 pgid p rfl ?_⟩
      rw [getOrCreate_print_groups]
      exact hp
  obtain ⟨pg, heq⟩ := hmain
  rw [heq]
  refine ⟨(getOrCreate db rid).2.1, ?_, getOrCreate_req_request_id db rid, ?_⟩
  · rw [saveCore_db_requests]
    exact getOrCreate_req_mem db rid
  · intro s hs
    rcases List.mem_cons.mp hs with rfl | hs
    · left; intro i; exact Iff.rfl
    · have hcommits : (saveCore (getOrCreate db rid).1 (getOrCreate db rid).2.1.id st
          ((getOrCreate db rid).1.documents.filter (fun d => ids.contains d.id)) pg
          (if (getOrCreate db rid).2.2 then [(getOrCreate db rid).1] else [])).commits
          = (if (getOrCreate db rid).2.2 then [(getOrCreate db rid).1] else [])
            ++ [deleteSectionSelections (getOrCreate db rid).1
                  (getOrCreate db rid).2.1.id st,
                (saveCore (getOrCreate db rid).1 (getOrCreate db rid).2.1.id st
                  ((getOrCreate db rid).1.documents.filter
                    (fun d => ids.contains d.id)) pg
                  (if (getOrCreate db rid).2.2 then [(getOrCreate db rid).1] else [])).db] :=
        rfl
      rw [hcommits] at hs
      rcases List.mem_append.mp hs with hs | hs
      · left
        have hs1 : s = (getOrCreate db rid).1 := by
          by_cases hb : (getOrCreate db rid).2.2
          · rw [if_pos hb] at hs
            simpa using hs
          · rw [if_neg hb] at hs
            cases hs
        subst hs1
        have : sectionSelections (getOrCreate db rid).1 (getOrCreate db rid).2.1.id st
            = sectionSelections db (getOrCreate db rid).2.1.id st := by
          rw [sectionSelections, sectionSelections, getOrCreate_selections]
        intro i
        rw [sectionDocs, sectionDocs, this]
      · rcases List.mem_cons.mp hs with rfl | hs
        · right; left
          rw [sectionDocs, sectionSelections_deleteSection_self]
          rfl
        · have hs3 : s = (saveCore (getOrCreate db rid).1
              (getOrCreate db rid).2.1.id st
              ((getOrCreate db rid).1.documents.filter (fun d => ids.contains d.id)) pg
              (if (getOrCreate db rid).2.2 then [(getOrCreate db rid).1] else [])).db := by
            simpa using hs
          subst hs3
          right; right
          intro i
          rw [saveCore_sectionDocs_mem]
          rw [hdocs1]
          exact mem_filterDocs db ids hex i

/-- Witness for the amended C1: concrete run on the example store. -/
theorem c1_amended_replace_commit_states_witness :
    ∃ req ∈ (save_admin_selections exDB "r" "individual" [3] none).db.requests,
      req.request_id = "r" ∧
      ∀ s ∈ exDB :: (save_admin_selections exDB "r" "individual" [3] none).commits,
        (∀ i, i ∈ sectionDocs s req.id "individual"
            ↔ i ∈ sectionDocs exDB req.id "individual") ∨
        sectionDocs s req.id "individual" = [] ∨
        (∀ i, i ∈ sectionDocs s req.id "individual" ↔ i ∈ [3]) :=
  c1_amended_replace_commit_states exDB "r" "individual" [3] none
    (by decide) (by decide) (by decide) (by decide) (by decide)
    (by intro pgid h; cases h) (by intro h; exact absurd h (by decide))

theorem delete_user_upload_accepted (db : DB) (rid : String) (uid : Nat)
    (req : DocumentRequest) (u : UserDocumentUpload)
    (hreq : findRequest db rid = some req)
    (hfind : db.uploads.find? (fun v => v.id == uid &&
        db.selections.any (fun s => s.id == v.admin_selection && s.request == req.id))
      = some u)
    (hacc : u.accepted = true) :
    delete_user_upload db rid uid
      = ⟨db, .err 403 "Cannot delete an accepted document", []⟩ := by
  simp only [delete_user_upload, hreq, hfind]
  rw [if_pos hacc]

theorem delete_user_upload_pending (db : DB) (rid : String) (uid : Nat)
    (req : DocumentRequest) (u : UserDocumentUpload)
    (hreq : findRequest db rid = some req)
    (hfind : db.uploads.find? (fun v => v.id == uid &&
        db.selections.any (fun s => s.id == v.admin_selection && s.request == req.id))
      = some u)
    (hacc : u.accepted = false) :
    (delete_user_upload db rid uid).resp = .ok 200 ∧
    (delete_user_upload db rid uid).db.uploads
      = db.uploads.filter (fun v => !(v.id == u.id)) := by
  simp only [delete_user_upload, hreq, hfind]
  rw [if_neg (by rw [hacc]; exact Bool.false_ne_true)]
  exact ⟨rfl, rfl⟩

theorem accept_user_upload_spec (db : DB) (rid : String) (uid : Nat)
    (acc : Bool) (req : DocumentRequest) (u : UserDocumentUpload)
    (hreq : findRequest db rid = some req)
    (hfind : db.uploads.find? (fun v => v.id == uid &&
        db.selections.any (fun s => s.id == v.admin_selection && s.request == req.id))
      = some u) :
    accept_user_upload db rid uid acc
      = ⟨{ db with
            uploads := db.uploads.map (fun v =>
              if v.id == u.id then
                { u with accepted := acc,
                         accepted_at := if acc then some db.nextId else none }
              else v),
            nextId := db.nextId + 1 }, .ok 200,
          [{ db with
              uploads := db.uploads.map (fun v =>
                if v.id == u.id then
                  { u with accepted := acc,
                           accepted_at := if acc then some db.nextId else none }
                else v),
              nextId := db.nextId + 1 }]⟩ := by
  simp only [accept_user_upload, hreq, hfind]

/-- C4: a borrower-facing delete of an accepted upload always fails with the
conflict response (HTTP 403) and returns the store untouched; after rejecting
the upload (`accepted := false`), the delete succeeds and removes the row. -/
theorem c4_accepted_upload_cannot_be_deleted
    (db : DB) (rid : String) (uid : Nat) (req : DocumentRequest)
    (u : UserDocumentUpload)
    (hreq : findRequest db rid = some req)
    (hfind : db.uploads.find? (fun v => v.id == uid &&
        db.selections.any (fun s => s.id == v.admin_selection && s.request == req.id))
      = some u) :
    (u.accepted = true →
      delete_user_upload db rid uid
        = ⟨db, .err 403 "Cannot delete an accepted document", []⟩) ∧
    ((accept_user_upload db rid uid false).resp = .ok 200 ∧
     (∀ v ∈ (accept_user_upload db rid uid false).db.uploads,
        v.id = u.id → v.accepted = false) ∧
     (delete_user_upload (accept_user_upload db rid uid false).db rid uid).resp
        = .ok 200 ∧
     ∀ v ∈ (delete_user_upload (accept_user_upload db rid uid false).db rid uid).db.uploads,
        v.id ≠ u.id) := by
  have hu_mem : u ∈ db.uploads := List.mem_of_find?_eq_some hfind
  have hu_pred := List.find?_some hfind
  rw [Bool.and_eq_true] at hu_pred
  have huid : u.id = uid := by simpa using hu_pred.1
  have heqA := accept_user_upload_spec db rid uid false req u hreq hfind
  have hreq2 : findRequest { db with
      uploads := db.uploads.map (fun v =>
        if v.id == u.id then
          { u with accepted := false, accepted_at := (if false then some db.nextId else none) }
        else v),
      nextId := db.nextId + 1 } rid = some req := hreq
  have hfind2 : ({ db with
      uploads := db.uploads.map (fun v =>
        if v.id == u.id then
          { u with accepted := false, accepted_at := (if false then some db.nextId else none) }
        else v),
      nextId := db.nextId + 1 } : DB).uploads.find? (fun v => v.id == uid &&
        ({ db with
          uploads := db.uploads.map (fun v =>
            if v.id == u.id then
              { u with accepted := false, accepted_at := (if false then some db.nextId else none) }
            else v),
          nextId := db.nextId + 1 } : DB).selections.any
          (fun s => s.id == v.admin_selection && s.request == req.id))
      = some ({ u with accepted := false, accepted_at := (if false then some db.nextId else none) }) := by
    show (db.uploads.map (fun v =>
        if v.id == u.id then
          { u with accepted := false, accepted_at := (if false then some db.nextId else none) }
        else v)).find? (fun v => v.id == uid &&
          db.selections.any (fun s => s.id == v.admin_selection && s.request == req.id))
      = some ({ u with accepted := false, accepted_at := (if false then some db.nextId else none) })
    have hu2mem : ({ u with accepted := false, accepted_at := (if false then some db.nextId else none) }
        : UserDocumentUpload) ∈ db.uploads.map (fun v =>
          if v.id == u.id then
            { u with accepted := false, accepted_at := (if false then some db.nextId else none) }
          else v) := by
      refine List.mem_map.mpr ⟨u, hu_mem, ?_⟩
      simp
    have hpredu2 : (({ u with accepted := false, accepted_at := (if false then some db.nextId else none) }
          : UserDocumentUpload).id == uid &&
        db.selections.any (fun s =>
          s.id == ({ u with accepted := false, accepted_at := (if false then some db.nextId else none) }
            : UserDocumentUpload).admin_selection && s.request == req.id)) = true := by
      rw [Bool.and_eq_true]
      exact hu_pred
    cases hw : (db.uploads.map (fun v =>
        if v.id == u.id then
          { u with accepted := false, accepted_at := (if false then some db.nextId else none) }
        else v)).find? (fun v => v.id == uid &&
          db.selections.any (fun s => s.id == v.admin_selection && s.request == req.id)) with
    | none =>
      exfalso
      exact (List.find?_eq_none.mp hw _ hu2mem) hpredu2
    | some w =>
      have hw_pred := List.find?_some hw
      have hw_mem := List.mem_of_find?_eq_some hw
      obtain ⟨v0, hv0, hveq⟩ := List.mem_map.mp hw_mem
      by_cases hvid : (v0.id == u.id) = true
      · rw [if_pos hvid] at hveq
        rw [hveq]
      · rw [if_neg hvid] at hveq
        exfalso
        apply hvid
        rw [Bool.and_eq_true] at hw_pred
        have hwid : w.id = uid := by simpa using hw_pred.1
        have hv0id : v0.id = uid := by rw [hveq]; exact hwid
        rw [hv0id, huid]
        exact beq_self_eq_true uid
  have hdel := delete_user_upload_pending _ rid uid req _ hreq2 hfind2 rfl
  refine ⟨fun hacc => delete_user_upload_accepted db rid uid req u hreq hfind hacc,
    ?_, ?_, ?_, ?_⟩
  · rw [heqA]
  · rw [heqA]
    intro v hv hvid
    obtain ⟨w, hw, hweq⟩ := List.mem_map.mp hv
    by_cases hwid : (w.id == u.id) = true
    · rw [if_pos hwid] at hweq
      rw [← hweq]
    · rw [if_neg hwid] at hweq
      exfalso
      apply hwid
      rw [hweq, hvid]
      exact beq_self_eq_true u.id
  · rw [heqA]
    exact hdel.1
  · rw [heqA]
    rw [hdel.2]
    intro v hv
    have := (List.mem_filter.mp hv).2
    simpa using this

/-- C5 counterexample: scope-local name uniqueness does *not* hold for every
entity kind.  `create_needs_list_print_group` — the only print-group creation
endpoint — performs no duplicate-name check, so creating a second print group
named `PG` in the same scope (the same request, id 4, which already owns a
print group `PG`) succeeds with HTTP 201 instead of failing with a conflict
error, leaving two same-name same-scope print groups in the store. -/
theorem c5_counterexample :
    (∃ p ∈ exDB.print_groups, p.name = "PG" ∧ p.request = some 4) ∧
    (create_needs_list_print_group exDB "r" "PG" "").resp = .ok 201 ∧
    (∃ p1 ∈ (create_needs_list_print_group exDB "r" "PG" "").db.print_groups,
      ∃ p2 ∈ (create_needs_list_print_group exDB "r" "PG" "").db.print_groups,
        p1.id ≠ p2.id ∧ p1.name = "PG" ∧ p2.name = "PG" ∧
        p1.request = some 4 ∧ p2.request = some 4) := by decide

/-- C5 amended: scope-local name uniqueness is enforced for *categories* only.
Creating a category whose name already exists in the same scope (both global,
or both scoped to the same request) fails with the duplicate-name conflict
(HTTP 400), while the same name in a different scope succeeds — the global
check ignores request-scoped rows and the request-scoped check ignores global
rows and other requests.  Print-group creation performs no name check at all:
it succeeds (HTTP 201) and stores the request-scoped group even when a group
with the same name already exists in the same scope. -/
theorem c5_amended_scope_local_uniqueness
    (db : DB) (n d rid : String) (req : DocumentRequest)
    (hn : n ≠ "")
    (hreqfind : db.requests.find? (fun r => r.request_id == rid) = some req) :
    ((∃ c ∈ db.categories, c.name = n ∧ c.request = none) →
      create_category db n d none
        = ⟨db, .err 400 "Category with this name already exists", []⟩) ∧
    ((∃ c ∈ db.categories, c.name = n ∧ c.request = some req.id) →
      create_category db n d (some rid)
        = ⟨db, .err 400 "A category with this name already exists for this request", []⟩) ∧
    ((¬ ∃ c ∈ db.categories, c.name = n ∧ c.request = none) →
      (create_category db n d none).resp = .ok 201 ∧
      ∃ c ∈ (create_category db n d none).db.categories,
        c.name = n ∧ c.request = none) ∧
    ((¬ ∃ c ∈ db.categories, c.name = n ∧ c.request = some req.id) →
      (create_category db n d (some rid)).resp = .ok 201 ∧
      ∃ c ∈ (create_category db n d (some rid)).db.categories,
        c.name = n ∧ c.request = some req.id) ∧
    ((create_needs_list_print_group db rid n d).resp = .ok 201 ∧
      ∃ p ∈ (create_needs_list_print_group db rid n d).db.print_groups,
        p.name = n ∧ p.request = some req.id) := by
  have hany : ∀ r : Option Nat,
      (db.categories.any (fun c => c.name == n && c.request == r)) = true
        ↔ ∃ c ∈ db.categories, c.name = n ∧ c.request = r := by
    intro r
    rw [List.any_eq_true]
    constructor
    · rintro ⟨c, hc, hp⟩
      rw [Bool.and_eq_true] at hp
      exact ⟨c, hc, by simpa using hp.1, by simpa using hp.2⟩
    · rintro ⟨c, hc, h1, h2⟩
      exact ⟨c, hc, by simp [h1, h2]⟩
  have hgoc := getOrCreate_found db rid req hreqfind
  refine ⟨?_, ?_, ?_, ?_, ?_⟩
  · intro hdup
    simp only [create_category]
    rw [if_neg hn, if_pos ((hany none).mpr hdup)]
  · intro hdup
    simp only [create_category, hgoc]
    rw [if_neg hn, if_pos ((hany (some req.id)).mpr hdup)]
    rfl
  · intro hnodup
    simp only [create_category]
    rw [if_neg hn, if_neg (fun h => hnodup ((hany none).mp h))]
    exact ⟨rfl, ⟨db.nextId, n, if d = "" then "Category: " ++ n else d, none⟩,
      List.mem_cons_self _ _, rfl, rfl⟩
  · intro hnodup
    simp only [create_category, hgoc]
    rw [if_neg hn, if_neg (fun h => hnodup ((hany (some req.id)).mp h))]
    exact ⟨rfl, ⟨db.nextId, n, if d = "" then "Category: " ++ n else d, some req.id⟩,
      List.mem_cons_self _ _, rfl, rfl⟩
  · simp only [create_needs_list_print_group, hgoc]
    rw [if_neg hn]
    exact ⟨rfl, ⟨db.nextId, n, if d = "" then "Print group: " ++ n else d, some req.id⟩,
      List.mem_cons_self _ _, rfl, rfl⟩

/-- Witness for the amended C5: instantiated on the example store, request
`"r"` — which already owns a print group named `PG`, so the last conjunct
creates a same-name same-scope duplicate. -/
theorem c5_amended_scope_local_uniqueness_witness :
    ((∃ c ∈ exDB.categories, c.name = "PG" ∧ c.request = none) →
      create_category exDB "PG" "x" none
        = ⟨exDB, .err 400 "Category with this name already exists", []⟩) ∧
    ((∃ c ∈ exDB.categories, c.name = "PG" ∧
        c.request = some (⟨4, "r"⟩ : DocumentRequest).id) →
      create_category exDB "PG" "x" (some "r")
        = ⟨exDB, .err 400 "A category with this name already exists for this request", []⟩) ∧
    ((¬ ∃ c ∈ exDB.categories, c.name = "PG" ∧ c.request = none) →
      (create_category exDB "PG" "x" none).resp = .ok 201 ∧
      ∃ c ∈ (create_category exDB "PG" "x" none).db.categories,
        c.name = "PG" ∧ c.request = none) ∧
    ((¬ ∃ c ∈ exDB.categories, c.name = "PG" ∧
        c.request = some (⟨4, "r"⟩ : DocumentRequest).id) →
      (create_category exDB "PG" "x" (some "r")).resp = .ok 201 ∧
      ∃ c ∈ (create_category exDB "PG" "x" (some "r")).db.categories,
        c.name = "PG" ∧ c.request = some (⟨4, "r"⟩ : DocumentRequest).id) ∧
    ((create_needs_list_print_group exDB "r" "PG" "x").resp = .ok 201 ∧
      ∃ p ∈ (create_needs_list_print_group exDB "r" "PG" "x").db.print_groups,
        p.name = "PG" ∧ p.request = some (⟨4, "r"⟩ : DocumentRequest).id) :=
  c5_amended_scope_local_uniqueness exDB "PG" "x" "r" ⟨4, "r"⟩
    (by decide) (by decide)

/-- C6: deleting an adhoc selection whose document is request-scoped deletes
both the selection and the document (with its cascades), so the rebuilt view
shows no trace of either; when the document is global, the selection goes but
the document row survives. -/
theorem c6_delete_adhoc_scoped_vs_global
    (db : DB) (rid : String) (selId : Nat) (req : DocumentRequest)
    (sel : AdminDocumentSelection) (doc : Document)
    (hreq : findRequest db rid = some req)
    (hfind : db.selections.find? (fun s => s.id == selId && s.request == req.id &&
        s.section_type == "adhoc") = some sel)
    (hdoc : db.documents.find? (fun d => d.id == sel.document) = some doc) :
    (doc.request.isSome = true →
      (delete_adhoc_document db rid selId).resp = .ok 200 ∧
      (∀ d ∈ (delete_adhoc_document db rid selId).db.documents, d.id ≠ doc.id) ∧
      (∀ s ∈ (delete_adhoc_document db rid selId).db.selections,
        s.id ≠ sel.id ∧ s.document ≠ doc.id) ∧
      (∀ e : DocEntry,
        (e ∈ (build_request_document_data (delete_adhoc_document db rid selId).db req).adhoc ∨
         e ∈ (build_request_document_data (delete_adhoc_document db rid selId).db req).individual ∨
         ∃ k es, (k, es) ∈ (build_request_document_data
            (delete_adhoc_document db rid selId).db req).needs_list ∧ e ∈ es) →
        e.document_id ≠ doc.id ∧ e.selection_id ≠ sel.id)) ∧
    (doc.request = none →
      (delete_adhoc_document db rid selId).resp = .ok 200 ∧
      doc ∈ (delete_adhoc_document db rid selId).db.documents ∧
      ∀ s ∈ (delete_adhoc_document db rid selId).db.selections, s.id ≠ sel.id) := by
  constructor
  · intro hscope
    simp only [delete_adhoc_document, hreq, deleteSelectionRow, hfind, hdoc]
    rw [if_pos hscope]
    have hsels : ∀ s ∈ (deleteDocumentCascade
        { db with
          selections := db.selections.filter (fun s => !(s.id == sel.id)),
          uploads := db.uploads.filter (fun u => !(u.admin_selection == sel.id)) }
        doc.id).selections, s.id ≠ sel.id ∧ s.document ≠ doc.id := by
      intro s hs
      simp only [deleteDocumentCascade] at hs
      have h2 := List.mem_filter.mp hs
      have h3 := List.mem_filter.mp h2.1
      refine ⟨?_, ?_⟩
      · simpa using h3.2
      · simpa using h2.2
    refine ⟨rfl, ?_, hsels, ?_⟩
    · intro d hd
      simp only [deleteDocumentCascade] at hd
      have := (List.mem_filter.mp hd).2
      simpa using this
    · intro e he
      have hsrc := buildFold_entry_sources
        (deleteDocumentCascade
          { db with
            selections := db.selections.filter (fun s => !(s.id == sel.id)),
            uploads := db.uploads.filter (fun u => !(u.admin_selection == sel.id)) }
          doc.id)
        (((deleteDocumentCascade
          { db with
            selections := db.selections.filter (fun s => !(s.id == sel.id)),
            uploads := db.uploads.filter (fun u => !(u.admin_selection == sel.id)) }
          doc.id).selections.filter (fun s => s.request == req.id)).insertionSort selLE)
        ⟨[], [], []⟩
      have hfrom : ∃ s ∈ ((deleteDocumentCascade
          { db with
            selections := db.selections.filter (fun s => !(s.id == sel.id)),
            uploads := db.uploads.filter (fun u => !(u.admin_selection == sel.id)) }
          doc.id).selections.filter (fun s => s.request == req.id)).insertionSort selLE,
          selectionEntry (deleteDocumentCascade
            { db with
              selections := db.selections.filter (fun s => !(s.id == sel.id)),
              uploads := db.uploads.filter (fun u => !(u.admin_selection == sel.id)) }
            doc.id) s = some e := by
        rcases he with he | he | ⟨k, es, hm, hees⟩
        · rcases hsrc.1 e he with h | h
          · cases h
          · exact h
        · rcases hsrc.2.1 e he with h | h
          · cases h
          · exact h
        · rcases hsrc.2.2 k es e hm hees with ⟨es1, hes1, -⟩ | h
          · cases hes1
          · exact h
      obtain ⟨s, hsL, hse⟩ := hfrom
      have hsmem := ((mem_sortedReqSelections _ _ s).mp hsL).1
      obtain ⟨hdocid, hselid⟩ := selectionEntry_some_spec _ _ _ hse
      obtain ⟨hid, hdocne⟩ := hsels s hsmem
      rw [hdocid, hselid]
      exact ⟨hdocne, hid⟩
  · intro hglobal
    simp only [delete_adhoc_document, hreq, deleteSelectionRow, hfind, hdoc]
    rw [if_neg (by rw [hglobal]; exact Bool.false_ne_true)]
    refine ⟨rfl, List.mem_of_find?_eq_some hdoc, ?_⟩
    intro s hs
    have := (List.mem_filter.mp hs).2
    simpa using this

/-- Witness for C6: the example store with an adhoc request-scoped document
(selection 9, document 8, owned by request 4). -/
theorem c6_delete_adhoc_scoped_vs_global_witness :
    (((⟨8, "Letter", "adhoc letter", 0, [], some 4⟩ : Document).request.isSome = true →
      (delete_adhoc_document exDBAdhoc "r" 9).resp = .ok 200 ∧
      (∀ d ∈ (delete_adhoc_document exDBAdhoc "r" 9).db.documents,
        d.id ≠ (⟨8, "Letter", "adhoc letter", 0, [], some 4⟩ : Document).id) ∧
      (∀ s ∈ (delete_adhoc_document exDBAdhoc "r" 9).db.selections,
        s.id ≠ (⟨9, 4, "adhoc", 8, none, 9⟩ : AdminDocumentSelection).id ∧
        s.document ≠ (⟨8, "Letter", "adhoc letter", 0, [], some 4⟩ : Document).id) ∧
      (∀ e : DocEntry,
        (e ∈ (build_request_document_data (delete_adhoc_document exDBAdhoc "r" 9).db
            ⟨4, "r"⟩).adhoc ∨
         e ∈ (build_request_document_data (delete_adhoc_document exDBAdhoc "r" 9).db
            ⟨4, "r"⟩).individual ∨
         ∃ k es, (k, es) ∈ (build_request_document_data
            (delete_adhoc_document exDBAdhoc "r" 9).db ⟨4, "r"⟩).needs_list ∧ e ∈ es) →
        e.document_id ≠ (⟨8, "Letter", "adhoc letter", 0, [], some 4⟩ : Document).id ∧
        e.selection_id ≠ (⟨9, 4, "adhoc", 8, none, 9⟩ : AdminDocumentSelection).id)) ∧
    ((⟨8, "Letter", "adhoc letter", 0, [], some 4⟩ : Document).request = none →
      (delete_adhoc_document exDBAdhoc "r" 9).resp = .ok 200 ∧
      (⟨8, "Letter", "adhoc letter", 0, [], some 4⟩ : Document)
        ∈ (delete_adhoc_document exDBAdhoc "r" 9).db.documents ∧
      ∀ s ∈ (delete_adhoc_document exDBAdhoc "r" 9).db.selections,
        s.id ≠ (⟨9, 4, "adhoc", 8, none, 9⟩ : AdminDocumentSelection).id)) :=
  c6_delete_adhoc_scoped_vs_global exDBAdhoc "r" 9 ⟨4, "r"⟩
    ⟨9, 4, "adhoc", 8, none, 9⟩ ⟨8, "Letter", "adhoc letter", 0, [], some 4⟩
    (by decide) (by decide) (by decide)

/-- C8 counterexample: the needs-list grouping produced by
`_build_request_document_data` (the view rendered by the admin and borrower
pages) keeps the groups in selection-creation order, not lexicographic order:
with group `B` created before group `A`, the view lists `B` first, which is
not sorted.  Only the PDF export sorts the groups. -/
theorem c8_counterexample :
    ((build_request_document_data exDBNeeds ⟨1, "r"⟩).needs_list.map Prod.fst
      = ["B", "A"]) ∧
    ¬ List.Sorted (fun a b : String => a ≤ b)
      ((build_request_document_data exDBNeeds ⟨1, "r"⟩).needs_list.map Prod.fst) ∧
    (download_request_pdf_needs exDBNeeds ⟨1, "r"⟩).map Prod.fst = ["A", "B"] := by
  have h1 : (build_request_document_data exDBNeeds ⟨1, "r"⟩).needs_list.map Prod.fst
      = ["B", "A"] := by decide
  refine ⟨h1, ?_, by decide⟩
  rw [h1]
  intro hsort
  have hBA : ("B" : String) ≤ "A" :=
    (List.sorted_cons.mp hsort).1 "A" (List.mem_singleton.mpr rfl)
  have := (strLE_iff_le "B" "A").mpr hBA
  exact absurd this (by decide)

/-- C8 amended: lexicographic group ordering holds only for the PDF export
(`download_request_pdf` iterates `sorted(needs_list_docs.items())`); the
group sequence it renders is sorted by group name for every store and
request.  The underlying view itself presents groups in insertion order. -/
theorem c8_amended_pdf_groups_sorted (db : DB) (req : DocumentRequest) :
    List.Sorted (fun a b : String => a ≤ b)
      ((download_request_pdf_needs db req).map Prod.fst) := by
  have hs : List.Sorted pairKeyLE (download_request_pdf_needs db req) :=
    List.sorted_insertionSort pairKeyLE _
  exact List.Pairwise.map Prod.fst
    (fun a b hab => (strLE_iff_le a.1 b.1).mp hab) hs

/-- Witness for C4: the accepted upload (id 8) of the example store cannot be
deleted; after rejection it can, and the row disappears. -/
theorem c4_accepted_upload_cannot_be_deleted_witness :
    (((⟨8, 6, "f.pdf", 8, true, some 9⟩ : UserDocumentUpload).accepted = true →
      delete_user_upload exDBUpload "r" 8
        = ⟨exDBUpload, .err 403 "Cannot delete an accepted document", []⟩) ∧
    ((accept_user_upload exDBUpload "r" 8 false).resp = .ok 200 ∧
     (∀ v ∈ (accept_user_upload exDBUpload "r" 8 false).db.uploads,
        v.id = (⟨8, 6, "f.pdf", 8, true, some 9⟩ : UserDocumentUpload).id →
          v.accepted = false) ∧
     (delete_user_upload (accept_user_upload exDBUpload "r" 8 false).db "r" 8).resp
        = .ok 200 ∧
     ∀ v ∈ (delete_user_upload (accept_user_upload exDBUpload "r" 8 false).db "r" 8).db.uploads,
        v.id ≠ (⟨8, 6, "f.pdf", 8, true, some 9⟩ : UserDocumentUpload).id)) :=
  c4_accepted_upload_cannot_be_deleted exDBUpload "r" 8 ⟨4, "r"⟩
    ⟨8, 6, "f.pdf", 8, true, some 9⟩ (by decide) (by decide)

/-- C7: in every state reachable through the operations (adhoc, individual
and needs-list creation, bulk section replace, adhoc deletion with its
cascades, uploads and review), no two selection rows of the store agree on
the full key `(request, section_type, document, print_group)` — including
rows whose `print_group` is absent. -/
theorem c7_selection_key_unique (db : DB) (h : reachable db) :
    db.selections.Pairwise (fun a b => selKey a ≠ selKey b) :=
  (wf_reachable db h).sel_key_distinct

/-- Witness for C7: the concrete store reached by creating two needs-list
documents in two print groups satisfies key uniqueness. -/
theorem c7_selection_key_unique_witness :
    exDBNeeds.selections.Pairwise (fun a b => selKey a ≠ selKey b) :=
  c7_selection_key_unique exDBNeeds
    ⟨[.category "Cat" "" none,
      .printGroup "r" "B" "",
      .printGroup "r" "A" "",
      .needsListDocument "r" "Doc1" "d" (some 0) (some 2),
      .needsListDocument "r" "Doc2" "d" (some 0) (some 3)], rfl⟩

/-- C9: request resolution is idempotent.  In every reachable state the rows
of `DocumentRequest` have pairwise distinct `request_id`s (so at most one row
per external identifier exists); `get_or_create` returns a row carrying the
requested identifier, that row is stored, every stored row with that
identifier *is* the returned row, and running `get_or_create` again resolves
to the same row without touching the store. -/
theorem c9_resolve_or_create_idempotent (db : DB) (h : reachable db)
    (rid : String) :
    (∀ r1 ∈ db.requests, ∀ r2 ∈ db.requests, r1.request_id = r2.request_id →
      r1 = r2) ∧
    (getOrCreate db rid).2.1.request_id = rid ∧
    (getOrCreate db rid).2.1 ∈ (getOrCreate db rid).1.requests ∧
    (∀ r ∈ (getOrCreate db rid).1.requests, r.request_id = rid →
        r = (getOrCreate db rid).2.1) ∧
    getOrCreate (getOrCreate db rid).1 rid
      = ((getOrCreate db rid).1, (getOrCreate db rid).2.1, false) := by
  have hwf := wf_reachable db h
  have hnd2 := getOrCreate_req_rid_nodup db rid hwf.req_rid_nodup
  refine ⟨?_, getOrCreate_req_request_id db rid, getOrCreate_req_mem db rid,
    ?_, ?_⟩
  · intro r1 h1 r2 h2 heq
    exact List.inj_on_of_nodup_map hwf.req_rid_nodup h1 h2 heq
  · intro r hr hrid
    apply List.inj_on_of_nodup_map hnd2 hr (getOrCreate_req_mem db rid)
    rw [hrid, getOrCreate_req_request_id]
  · exact getOrCreate_found _ rid _ (getOrCreate_find_after db rid)

/-- Witness for C9: concrete resolution of `"r"` on the example store. -/
theorem c9_resolve_or_create_idempotent_witness :
    (∀ r1 ∈ exDB.requests, ∀ r2 ∈ exDB.requests,
      r1.request_id = r2.request_id → r1 = r2) ∧
    (getOrCreate exDB "r").2.1.request_id = "r" ∧
    (getOrCreate exDB "r").2.1 ∈ (getOrCreate exDB "r").1.requests ∧
    (∀ r ∈ (getOrCreate exDB "r").1.requests, r.request_id = "r" →
        r = (getOrCreate exDB "r").2.1) ∧
    getOrCreate (getOrCreate exDB "r").1 "r"
      = ((getOrCreate exDB "r").1, (getOrCreate exDB "r").2.1, false) :=
  c9_resolve_or_create_idempotent exDB
    ⟨[.category "Cat" "" none,
      .globalDocument "D1" "x" (some 0) [],
      .globalDocument "D2" "x" (some 0) [],
      .globalDocument "D3" "x" (some 0) [],
      .printGroup "r" "PG" "",
      .saveSelections "r" "individual" [1, 2] none], rfl⟩ "r"

end NeedsList
